import Mathlib

/-!
Verification of the kindle-beam native-messaging host (`src/host/beam-host.py`).

The Python source is shallowly embedded: byte streams are `List Nat` (each
element a byte value), machine integers are `Nat` with explicit `% 2 ^ w`
where overflow matters, fallible operations return `Option`/`Except`, and
process-level effects (filesystem, subprocess, network, SMTP) are threaded
explicitly as state / outcome oracles.  Standard-library calls made by the
source (`struct`, `json`, `hashlib.md5`, `urllib.parse`, `os.path`,
`re.sub` on the one concrete pattern family the source builds) are modelled
by executable Lean functions that follow the CPython behaviour on the
inputs the program can produce; each such model notes its provenance.
-/

namespace KindleBeam

/-! ## Bytes and the native-messaging length prefix

`struct.pack("@I", n)` / `struct.unpack("@I", b)` on the (little-endian)
host: a 4-byte native-endian unsigned 32-bit integer.  `pack` raises
`struct.error` when the argument does not fit in 32 bits, which the model
exposes with `Option`. -/

/-- Little-endian 4-byte encoding of `n` (defined for `n < 2 ^ 32`);
models `struct.pack("@I", n)` on a little-endian host. -/
def packLE (n : Nat) : List Nat :=
  [n % 256, n / 256 % 256, n / 65536 % 256, n / 16777216 % 256]

/-- `struct.pack("@I", n)` including the out-of-range failure
(`struct.error` for `n ≥ 2 ^ 32`). -/
def packLE? (n : Nat) : Option (List Nat) :=
  if n < 4294967296 then some (packLE n) else none

/-- Little-endian decoding of exactly four bytes;
models `struct.unpack("@I", b)[0]`. -/
def unpackLE (b0 b1 b2 b3 : Nat) : Nat :=
  b0 + 256 * b1 + 65536 * b2 + 16777216 * b3

/-- `stream.read(n)` on a buffered byte stream at end of input: returns up
to `n` bytes (fewer when the stream is exhausted). -/
def pyRead (n : Nat) (s : List Nat) : List Nat × List Nat :=
  (s.take n, s.drop n)

/-! ## UTF-8

`bytes.decode("utf-8")` (strict) and `str.encode()`.  The encoder maps each
scalar value to its UTF-8 byte sequence; the decoder validates length,
continuation bytes, overlong forms, surrogates and the `0x10FFFF` bound,
returning `none` where CPython raises `UnicodeDecodeError`. -/

/-- UTF-8 encoding of one Unicode scalar value. -/
def utf8EncodeChar (c : Char) : List Nat :=
  let n := c.toNat
  if n < 128 then [n]
  else if n < 2048 then [192 + n / 64, 128 + n % 64]
  else if n < 65536 then [224 + n / 4096, 128 + n / 64 % 64, 128 + n % 64]
  else [240 + n / 262144, 128 + n / 4096 % 64, 128 + n / 64 % 64, 128 + n % 64]

/-- UTF-8 encoding of a character list; models `str.encode("utf-8")`. -/
def utf8Encode (cs : List Char) : List Nat :=
  cs.flatMap utf8EncodeChar

/-- Whether `b` is a UTF-8 continuation byte, and its payload. -/
def contByte (b : Nat) : Option Nat :=
  if 128 ≤ b ∧ b < 192 then some (b % 64) else none

/-- Strict UTF-8 decoding; models `bytes.decode("utf-8")`, with `none`
where CPython raises `UnicodeDecodeError`.  The fuel is a
structural-recursion device; every step consumes at least one byte, so
any fuel of at least the input length computes the decode. -/
def utf8DecodeAux : Nat → List Nat → Option (List Char)
  | _, [] => some []
  | 0, _ :: _ => none
  | fuel + 1, b :: bs =>
    if b < 128 then
      (utf8DecodeAux fuel bs).map fun cs => Char.ofNat b :: cs
    else if b < 192 then none
    else if b < 224 then
      match bs with
      | b1 :: bs' =>
        match contByte b1 with
        | some p1 =>
          if (b - 192) * 64 + p1 < 128 then none
          else (utf8DecodeAux fuel bs').map fun cs => Char.ofNat ((b - 192) * 64 + p1) :: cs
        | none => none
      | [] => none
    else if b < 240 then
      match bs with
      | b1 :: b2 :: bs' =>
        match contByte b1, contByte b2 with
        | some p1, some p2 =>
          if (b - 224) * 4096 + p1 * 64 + p2 < 2048 ∨
              (55296 ≤ (b - 224) * 4096 + p1 * 64 + p2 ∧
                (b - 224) * 4096 + p1 * 64 + p2 < 57344) then none
          else (utf8DecodeAux fuel bs').map fun cs =>
            Char.ofNat ((b - 224) * 4096 + p1 * 64 + p2) :: cs
        | _, _ => none
      | _ => none
    else if b < 248 then
      match bs with
      | b1 :: b2 :: b3 :: bs' =>
        match contByte b1, contByte b2, contByte b3 with
        | some p1, some p2, some p3 =>
          if (b - 240) * 262144 + p1 * 4096 + p2 * 64 + p3 < 65536 ∨
              1114112 ≤ (b - 240) * 262144 + p1 * 4096 + p2 * 64 + p3 then none
          else (utf8DecodeAux fuel bs').map fun cs =>
            Char.ofNat ((b - 240) * 262144 + p1 * 4096 + p2 * 64 + p3) :: cs
        | _, _, _ => none
      | _ => none
    else none

/-- The UTF-8 decode at its canonical fuel. -/
def utf8Decode (bs : List Nat) : Option (List Char) :=
  utf8DecodeAux bs.length bs

/-! ## JSON

The messages exchanged by the host are JSON objects whose field values are
strings and booleans (`send_error` / `send_success` build the outgoing
dicts; the extension's requests carry string fields).  `JVal` models the
JSON fragment the program reads and writes: objects, strings, booleans,
null and (decimal integer) numbers.  `jsonDumps` follows
`json.dumps(..., ensure_ascii=True)` with the default separators;
`jsonLoads` follows `json.loads` on this fragment (the one modelling
deviation: a lone `\uXXXX` surrogate escape is rejected rather than
producing a lone-surrogate string, which Lean strings cannot hold and
which `json.dumps` of a valid string never emits). -/

/-- A JSON value of the fragment exchanged by the host. -/
inductive JVal where
  | str (s : String)
  | bool (b : Bool)
  | num (n : Int)
  | null
  | obj (fields : List (String × JVal))

/-- Lowercase hexadecimal digit. -/
def hexDigit (n : Nat) : Char :=
  match n % 16 with
  | 0 => '0' | 1 => '1' | 2 => '2' | 3 => '3' | 4 => '4'
  | 5 => '5' | 6 => '6' | 7 => '7' | 8 => '8' | 9 => '9'
  | 10 => 'a' | 11 => 'b' | 12 => 'c' | 13 => 'd' | 14 => 'e'
  | _ => 'f'

/-- Four lowercase hex digits, as in CPython's `'\\u%04x'` formatting
(defined for `n < 65536`). -/
def hex4 (n : Nat) : List Char :=
  [hexDigit (n / 4096), hexDigit (n / 256), hexDigit (n / 16), hexDigit n]

/-- Escaping of one character as in `json.dumps` with `ensure_ascii=True`
(CPython `py_encode_basestring_ascii`): printable ASCII other than `"` and
`\` is literal, the short escapes cover `\b \f \n \r \t`, and every other
character becomes `\uXXXX` (a surrogate pair beyond U+FFFF). -/
def escapeChar (c : Char) : List Char :=
  if c = '"' then ['\\', '"']
  else if c = '\\' then ['\\', '\\']
  else if c = '\x08' then ['\\', 'b']
  else if c = '\x0c' then ['\\', 'f']
  else if c = '\n' then ['\\', 'n']
  else if c = '\r' then ['\\', 'r']
  else if c = '\t' then ['\\', 't']
  else if 32 ≤ c.toNat ∧ c.toNat ≤ 126 then [c]
  else if c.toNat < 65536 then '\\' :: 'u' :: hex4 c.toNat
  else
    let v := c.toNat - 65536
    ('\\' :: 'u' :: hex4 (55296 + v / 1024)) ++ ('\\' :: 'u' :: hex4 (56320 + v % 1024))

/-- JSON string-body escaping, character by character. -/
def escapeList (cs : List Char) : List Char :=
  cs.flatMap escapeChar

/-- `json.dumps` of a string (quotes included). -/
def dumpString (s : String) : List Char :=
  '"' :: escapeList s.data ++ ['"']

/-- `json.dumps` with the default separators `", "` and `": "` and
`ensure_ascii=True`, on the modelled fragment. -/
def jsonDumps : JVal → List Char
  | .str s => dumpString s
  | .bool true => "true".data
  | .bool false => "false".data
  | .num n => (toString n).data
  | .null => "null".data
  | .obj fields =>
    let rec members : List (String × JVal) → List Char
      | [] => []
      | [(k, v)] => dumpString k ++ (':' :: ' ' :: jsonDumps v)
      | (k, v) :: rest =>
        dumpString k ++ (':' :: ' ' :: jsonDumps v) ++ (',' :: ' ' :: members rest)
    '\x7b' :: members fields ++ ['\x7d']

/-- The value of a hexadecimal digit character (`int(c, 16)`), both cases. -/
def hexVal? (c : Char) : Option Nat :=
  if c = '0' then some 0 else if c = '1' then some 1
  else if c = '2' then some 2 else if c = '3' then some 3
  else if c = '4' then some 4 else if c = '5' then some 5
  else if c = '6' then some 6 else if c = '7' then some 7
  else if c = '8' then some 8 else if c = '9' then some 9
  else if c = 'a' ∨ c = 'A' then some 10 else if c = 'b' ∨ c = 'B' then some 11
  else if c = 'c' ∨ c = 'C' then some 12 else if c = 'd' ∨ c = 'D' then some 13
  else if c = 'e' ∨ c = 'E' then some 14 else if c = 'f' ∨ c = 'F' then some 15
  else none

/-- Four hex digits to their value, as `py_scanstring` reads `\uXXXX`. -/
def parseHex4 (h1 h2 h3 h4 : Char) : Option Nat :=
  match hexVal? h1, hexVal? h2, hexVal? h3, hexVal? h4 with
  | some a, some b, some c, some d => some (a * 4096 + b * 256 + c * 16 + d)
  | _, _, _, _ => none

/-- Decode one `\u` escape (input positioned after the `\u`): a high
surrogate must be followed by a `\u`-escaped low surrogate, the pair
combining to one scalar value.  (Python would keep a lone surrogate as a
lone-surrogate string, which Lean strings cannot represent and which
`json.dumps` of a valid string never produces; the model rejects it.) -/
def parseUEscape : List Char → Option (Char × List Char)
  | h1 :: h2 :: h3 :: h4 :: rest' =>
    match parseHex4 h1 h2 h3 h4 with
    | some n =>
      if 55296 ≤ n ∧ n < 56320 then
        match rest' with
        | '\\' :: 'u' :: g1 :: g2 :: g3 :: g4 :: rest'' =>
          match parseHex4 g1 g2 g3 g4 with
          | some m =>
            if 56320 ≤ m ∧ m < 57344 then
              some (Char.ofNat (65536 + (n - 55296) * 1024 + (m - 56320)), rest'')
            else none
          | none => none
        | _ => none
      else if 56320 ≤ n ∧ n < 57344 then none
      else some (Char.ofNat n, rest')
    | none => none
  | _ => none

/-- The two-character escapes of `py_scanstring`. -/
def simpleEscape (e : Char) : Option Char :=
  if e = '"' then some '"' else if e = '\\' then some '\\'
  else if e = '/' then some '/' else if e = 'b' then some '\x08'
  else if e = 'f' then some '\x0c' else if e = 'n' then some '\n'
  else if e = 'r' then some '\r' else if e = 't' then some '\t'
  else none

/-- Parse the body of a JSON string after the opening quote, returning the
decoded characters and the input following the closing quote.  Follows
CPython `py_scanstring` (strict mode): raw control characters and unknown
escapes are errors.  The fuel is a structural-recursion device; every
step consumes input, so any fuel of at least the input length computes
the parse (`parseStrAux_fuel` below). -/
def parseStrAux : Nat → List Char → Option (List Char × List Char)
  | 0, _ => none
  | fuel + 1, cs =>
    match cs with
    | [] => none
    | c :: rest =>
      if c = '"' then some ([], rest)
      else if c = '\\' then
        match rest with
        | 'u' :: rest1 =>
          match parseUEscape rest1 with
          | some p => (parseStrAux fuel p.2).map fun q => (p.1 :: q.1, q.2)
          | none => none
        | e :: rest' =>
          match simpleEscape e with
          | some d => (parseStrAux fuel rest').map fun q => (d :: q.1, q.2)
          | none => none
        | [] => none
      else if c.toNat < 32 then none
      else (parseStrAux fuel rest).map fun q => (c :: q.1, q.2)

/-- The string-body parse at its canonical fuel. -/
def parseStringBody (cs : List Char) : Option (List Char × List Char) :=
  parseStrAux cs.length cs

/-- JSON insignificant whitespace. -/
def jsonWs (c : Char) : Bool :=
  c = ' ' ∨ c = '\t' ∨ c = '\n' ∨ c = '\r'

/-- Parse a (possibly signed) decimal integer literal. -/
def parseIntBody (cs : List Char) : Option (Int × List Char) :=
  let (neg, cs1) : Bool × List Char :=
    match cs with
    | '-' :: t => (true, t)
    | _ => (false, cs)
  let digs := cs1.takeWhile Char.isDigit
  if digs = [] then none
  else
    let n := digs.foldl (fun a c => a * 10 + (c.toNat - 48)) (0 : Nat)
    some (if neg then -(n : Int) else (n : Int), cs1.drop digs.length)

mutual

/-- Recursive-descent parser for the modelled JSON fragment; the fuel
bounds recursion and is instantiated generously by `jsonLoads`. -/
def parseValue : Nat → List Char → Option (JVal × List Char)
  | 0, _ => none
  | fuel + 1, cs =>
    let cs := cs.dropWhile jsonWs
    match cs with
    | [] => none
    | c :: rest =>
      if c = '\x7b' then
        let cs1 := rest.dropWhile jsonWs
        match cs1 with
        | '\x7d' :: rest' => some (.obj [], rest')
        | _ => (parseMembers fuel cs1).map fun p => (JVal.obj p.1, p.2)
      else if c = '"' then
        (parseStringBody rest).map fun p => (JVal.str (String.mk p.1), p.2)
      else if c = 't' then
        match rest with
        | 'r' :: 'u' :: 'e' :: rest' => some (.bool true, rest')
        | _ => none
      else if c = 'f' then
        match rest with
        | 'a' :: 'l' :: 's' :: 'e' :: rest' => some (.bool false, rest')
        | _ => none
      else if c = 'n' then
        match rest with
        | 'u' :: 'l' :: 'l' :: rest' => some (.null, rest')
        | _ => none
      else if c = '-' ∨ c.isDigit then
        (parseIntBody (c :: rest)).map fun p => (JVal.num p.1, p.2)
      else none

/-- Parse the members of a JSON object (input positioned at the first key),
up to and including the closing brace. -/
def parseMembers : Nat → List Char → Option (List (String × JVal) × List Char)
  | 0, _ => none
  | fuel + 1, cs =>
    match cs with
    | '"' :: rest =>
      match parseStringBody rest with
      | some (key, afterKey) =>
        match afterKey.dropWhile jsonWs with
        | ':' :: afterColon =>
          match parseValue fuel afterColon with
          | some (v, afterVal) =>
            match afterVal.dropWhile jsonWs with
            | ',' :: afterComma =>
              (parseMembers fuel (afterComma.dropWhile jsonWs)).map fun p =>
                ((String.mk key, v) :: p.1, p.2)
            | '\x7d' :: rest' => some ([(String.mk key, v)], rest')
            | _ => none
          | none => none
        | _ => none
      | none => none
    | _ => none

end

/-- `json.loads`: parse one JSON document, requiring only whitespace after
it.  The fuel `cs.length + 2` dominates any possible nesting depth. -/
def jsonLoads (cs : List Char) : Option JVal :=
  match parseValue (cs.length + 2) cs with
  | some (v, rest) => if rest.dropWhile jsonWs = [] then some v else none
  | none => none

/-! ## Framing codec (`read_message` / `send_message`) -/

/-- The exceptions `read_message` can raise: `struct.error` on a short
length prefix, `UnicodeDecodeError` from `.decode("utf-8")`, and
`json.JSONDecodeError` from `json.loads`. -/
inductive ReadErr where
  | structError
  | unicodeError
  | jsonError

/-- The tail of `read_message`:
`json.loads(message.decode("utf-8"))` on the bytes actually read. -/
def decodePayload (raw : List Nat) : Except ReadErr (Option JVal) :=
  match utf8Decode raw with
  | none => .error .unicodeError
  | some chars =>
    match jsonLoads chars with
    | none => .error .jsonError
    | some v => .ok (some v)

/-- `read_message()` over an explicit stdin byte stream: reads 4 bytes
(returning `none` for end-of-stream when no bytes at all are available),
unpacks the native-endian length, reads up to that many bytes, decodes
UTF-8 and parses JSON.  The code performs no short-read check after the
prefix: `sys.stdin.buffer.read(n)` simply returns the bytes available. -/
def readMessage (s : List Nat) : Except ReadErr (Option JVal) :=
  let (rawLength, s1) := pyRead 4 s
  if rawLength = [] then .ok none
  else
    match rawLength with
    | [b0, b1, b2, b3] =>
      let messageLength := unpackLE b0 b1 b2 b3
      let (raw, _) := pyRead messageLength s1
      decodePayload raw
    | _ => .error .structError

/-- The response objects the host writes: `send_success()` sends
`\x7b"success": True\x7d`, `send_error(msg)` sends
`\x7b"success": False, "error": msg\x7d`. -/
structure Response where
  success : Bool
  error : Option String

/-- The JSON object `send_message` receives for a `Response` (field
insertion order as built in the source). -/
def Response.toJVal (r : Response) : JVal :=
  match r.error with
  | none => .obj [("success", .bool r.success)]
  | some e => .obj [("success", .bool r.success), ("error", .str e)]

/-- `send_message(message)`: `json.dumps(message).encode("utf-8")`
preceded by the packed 4-byte length.  `struct.pack("@I", ...)` raises for
bodies of `2 ^ 32` bytes or more, modelled by `none`. -/
def writeMessageBytes (r : Response) : Option (List Nat) :=
  let body := utf8Encode (jsonDumps r.toJVal)
  (packLE? body.length).map (· ++ body)

/-- Encoding a `Response` with `send_message` and decoding the bytes with
`read_message`; `none` when either direction fails. -/
def roundTrip (r : Response) : Option JVal :=
  match writeMessageBytes r with
  | none => none
  | some bs =>
    match readMessage bs with
    | .ok (some v) => some v
    | _ => none

/-! ## HTML rewriter (`process_images`, lines 139-146)

The source substitutes, for each downloaded URL, the regular expression
`src\s*=\s*["']?<re.escape(url)>["']?` by `src="<local_file>"` using
`re.sub`.  Because the URL is `re.escape`d the pattern is a literal
alternation-free family, so `re.sub` is modelled exactly: scan left to
right, at each position try the (greedy, with the one-step backtracking
the optional quote class admits) match, replace non-overlapping matches,
and continue after each match.  `\s` is modelled by its ASCII members
(the pattern is only ever applied around URL text, where the further
Unicode whitespace `\s` also matches cannot occur). -/

/-- ASCII members of the regex class `\s`. -/
def reWs (c : Char) : Bool :=
  c = ' ' ∨ c = '\t' ∨ c = '\n' ∨ c = '\r' ∨ c = '\x0b' ∨ c = '\x0c'

/-- Quote characters of the class `["']`. -/
def reQuote (c : Char) : Bool :=
  c = '"' ∨ c = '\''

/-- Match `<url>["']?` at the head of `cs`, returning how many characters
were consumed. -/
def matchUrlTailLen (url cs : List Char) : Option Nat :=
  if url.isPrefixOf cs then
    match cs.drop url.length with
    | q :: _ => if reQuote q then some (url.length + 1) else some url.length
    | [] => some url.length
  else none

/-- Match `\s*=\s*["']?<url>["']?` at the head of `cs` (the part of the
pattern after the literal `src`), returning the number of characters
consumed.  `["']?` is greedy but backtracks when consuming the quote
prevents the URL from matching, exactly as the backtracking engine
does. -/
def matchAfterSrcLen (url cs : List Char) : Option Nat :=
  let w1 := (cs.takeWhile reWs).length
  match cs.drop w1 with
  | '=' :: cs2 =>
    let w2 := (cs2.takeWhile reWs).length
    let cs3 := cs2.drop w2
    let consumed := w1 + 1 + w2
    match cs3 with
    | q :: cs4 =>
      if reQuote q then
        match matchUrlTailLen url cs4 with
        | some n => some (consumed + 1 + n)
        | none => (matchUrlTailLen url cs3).map (consumed + ·)
      else (matchUrlTailLen url cs3).map (consumed + ·)
    | [] => (matchUrlTailLen url cs3).map (consumed + ·)
  | _ => none

/-- `re.sub(r'src\s*=\s*["\']?' + re.escape(url) + r'["\']?', repl, ·)`:
left-to-right scan replacing each non-overlapping match by `repl`.  The
fuel is only a structural-recursion device: every step consumes at least
one character, so any fuel of at least the input length computes the
scan (`subSrcAux_fuel` below makes this exact). -/
def subSrcAux (url repl : List Char) : Nat → List Char → List Char
  | _, [] => []
  | 0, cs => cs
  | f + 1, c :: cs =>
    match (if ['s', 'r', 'c'].isPrefixOf (c :: cs) then
             matchAfterSrcLen url ((c :: cs).drop 3) else none) with
    | some n => repl ++ subSrcAux url repl f ((c :: cs).drop (3 + n))
    | none => c :: subSrcAux url repl f cs

/-- The scan at its canonical fuel (the input length). -/
def subSrcRun (url repl cs : List Char) : List Char :=
  subSrcAux url repl cs.length cs

/-- One iteration of the replacement loop: substitute `url` by
`src="<localFile>"`. -/
def subSrc (url localFile html : String) : String :=
  String.mk (subSrcRun url.data ("src=\"" ++ localFile ++ "\"").data html.data)

/-- The replacement loop of `process_images` over the
`replacements.items()` in dict insertion order. -/
def applyReplacements (reps : List (String × String)) (html : String) : String :=
  reps.foldl (fun h p => subSrc p.1 p.2 h) html

/-! ## MD5 (`hashlib.md5(url.encode()).hexdigest()`)

The RFC 1321 algorithm over `Nat` with explicit reduction modulo
`2 ^ 32`. -/

/-- The 64 MD5 sine-derived constants. -/
def md5K : List Nat :=
  [0xd76aa478, 0xe8c7b756, 0x242070db, 0xc1bdceee,
   0xf57c0faf, 0x4787c62a, 0xa8304613, 0xfd469501,
   0x698098d8, 0x8b44f7af, 0xffff5bb1, 0x895cd7be,
   0x6b901122, 0xfd987193, 0xa679438e, 0x49b40821,
   0xf61e2562, 0xc040b340, 0x265e5a51, 0xe9b6c7aa,
   0xd62f105d, 0x02441453, 0xd8a1e681, 0xe7d3fbc8,
   0x21e1cde6, 0xc33707d6, 0xf4d50d87, 0x455a14ed,
   0xa9e3e905, 0xfcefa3f8, 0x676f02d9, 0x8d2a4c8a,
   0xfffa3942, 0x8771f681, 0x6d9d6122, 0xfde5380c,
   0xa4beea44, 0x4bdecfa9, 0xf6bb4b60, 0xbebfbc70,
   0x289b7ec6, 0xeaa127fa, 0xd4ef3085, 0x04881d05,
   0xd9d4d039, 0xe6db99e5, 0x1fa27cf8, 0xc4ac5665,
   0xf4292244, 0x432aff97, 0xab9423a7, 0xfc93a039,
   0x655b59c3, 0x8f0ccc92, 0xffeff47d, 0x85845dd1,
   0x6fa87e4f, 0xfe2ce6e0, 0xa3014314, 0x4e0811a1,
   0xf7537e82, 0xbd3af235, 0x2ad7d2bb, 0xeb86d391]

/-- The 64 MD5 per-round left-rotation amounts. -/
def md5S : List Nat :=
  [7, 12, 17, 22, 7, 12, 17, 22, 7, 12, 17, 22, 7, 12, 17, 22,
   5, 9, 14, 20, 5, 9, 14, 20, 5, 9, 14, 20, 5, 9, 14, 20,
   4, 11, 16, 23, 4, 11, 16, 23, 4, 11, 16, 23, 4, 11, 16, 23,
   6, 10, 15, 21, 6, 10, 15, 21, 6, 10, 15, 21, 6, 10, 15, 21]

/-- 32-bit left rotation (for `x < 2 ^ 32`). -/
def rotl32 (x s : Nat) : Nat :=
  (x * 2 ^ s + x / 2 ^ (32 - s)) % 4294967296

/-- The MD5 nonlinear function and message-word index for operation `i`. -/
def md5FG (i b c d : Nat) : Nat × Nat :=
  if i < 16 then ((b &&& c) ||| ((4294967295 ^^^ b) &&& d), i)
  else if i < 32 then ((d &&& b) ||| ((4294967295 ^^^ d) &&& c), (5 * i + 1) % 16)
  else if i < 48 then (b ^^^ c ^^^ d, (3 * i + 5) % 16)
  else (c ^^^ (b ||| (4294967295 ^^^ d)), (7 * i) % 16)

/-- One of the 64 MD5 operations. -/
def md5Op (m : List Nat) (st : Nat × Nat × Nat × Nat) (i : Nat) : Nat × Nat × Nat × Nat :=
  let (a, b, c, d) := st
  let (f, g) := md5FG i b c d
  let f := (f + a + md5K.getD i 0 + m.getD g 0) % 4294967296
  (d, (b + rotl32 f (md5S.getD i 0)) % 4294967296, b, c)

/-- Process one 16-word block. -/
def md5Block (st : Nat × Nat × Nat × Nat) (m : List Nat) : Nat × Nat × Nat × Nat :=
  let (a, b, c, d) := (List.range 64).foldl (md5Op m) st
  ((st.1 + a) % 4294967296, (st.2.1 + b) % 4294967296,
   (st.2.2.1 + c) % 4294967296, (st.2.2.2 + d) % 4294967296)

/-- Group little-endian bytes into 32-bit words (length divisible by 4). -/
def toWordsLE : List Nat → List Nat
  | b0 :: b1 :: b2 :: b3 :: rest => unpackLE b0 b1 b2 b3 :: toWordsLE rest
  | _ => []

/-- Group words into 16-word blocks (the padded input's word count is
divisible by 16, so the final catch-all is never reached). -/
def toBlocks : List Nat → List (List Nat)
  | [] => []
  | w0 :: w1 :: w2 :: w3 :: w4 :: w5 :: w6 :: w7 ::
    w8 :: w9 :: w10 :: w11 :: w12 :: w13 :: w14 :: w15 :: rest =>
    [w0, w1, w2, w3, w4, w5, w6, w7, w8, w9, w10, w11, w12, w13, w14, w15] ::
      toBlocks rest
  | ws => [ws]

/-- MD5 padding: `0x80`, zeros to 56 mod 64, and the 64-bit little-endian
bit length. -/
def md5Pad (msg : List Nat) : List Nat :=
  let len := msg.length
  let zeros := (119 - len % 64) % 64
  let bitLen := (8 * len) % 18446744073709551616
  msg ++ 128 :: List.replicate zeros 0 ++
    [bitLen % 256, bitLen / 256 % 256, bitLen / 65536 % 256,
     bitLen / 16777216 % 256, bitLen / 4294967296 % 256,
     bitLen / 1099511627776 % 256, bitLen / 281474976710656 % 256,
     bitLen / 72057594037927936 % 256]

/-- The four bytes of a 32-bit word, little-endian. -/
def wordBytesLE (w : Nat) : List Nat :=
  [w % 256, w / 256 % 256, w / 65536 % 256, w / 16777216 % 256]

/-- The 16 digest bytes of the MD5 of a byte string. -/
def md5Digest (msg : List Nat) : List Nat :=
  let st := (md5Pad msg |> toWordsLE |> toBlocks).foldl md5Block
    (0x67452301, 0xefcdab89, 0x98badcfe, 0x10325476)
  wordBytesLE st.1 ++ wordBytesLE st.2.1 ++ wordBytesLE st.2.2.1 ++ wordBytesLE st.2.2.2

/-- `hashlib.md5(s.encode()).hexdigest()`: 32 lowercase hex characters. -/
def md5Hex (s : String) : String :=
  String.mk ((md5Digest (utf8Encode s.data)).flatMap fun b => [hexDigit (b / 16), hexDigit b])

/-! ## URL splitting (`urllib.parse`) and `os.path.splitext`

`urlsplitModel` follows CPython `urllib.parse.urlsplit` (tab/CR/LF
removal, C0-control-and-space stripping, scheme detection and
lowercasing, netloc/query/fragment splitting), including the
`ValueError("Invalid IPv6 URL")` raised for a netloc holding `[` without
`]` or vice versa, modelled as `none`; callers of `urlsplit`/`urlparse`/
`urljoin` in the source do not guard against it, so it propagates.
The result caches are behaviour-free and omitted.  Two further checks
of `urlsplit` are not modelled: newer CPython (3.11 onward) validates a
*balanced* bracketed host as an IP address, and CPython since 3.6.x
rejects a *non-ASCII* netloc whose NFKC normalisation introduces a
separator.  The positive theorems below therefore quantify only over
ASCII, bracket-free inputs, on which neither check can fire and every
version agrees with the model. -/

/-- Split at the first occurrence of `c` (the separator excluded). -/
def splitOnFirst (c : Char) : List Char → Option (List Char × List Char)
  | [] => none
  | x :: xs =>
    if x = c then some ([], xs)
    else (splitOnFirst c xs).map fun p => (x :: p.1, p.2)

/-- Split at the last occurrence of `c` (the separator excluded). -/
def splitOnLast (c : Char) (cs : List Char) : Option (List Char × List Char) :=
  (splitOnFirst c cs.reverse).map fun p => (p.2.reverse, p.1.reverse)

/-- Characters allowed in a URL scheme after the first letter. -/
def schemeChar (c : Char) : Bool :=
  c.isAlpha ∨ c.isDigit ∨ c = '+' ∨ c = '-' ∨ c = '.'

/-- ASCII lowercasing of a character list (`str.lower` restricted to the
ASCII range, which is all the modelled callers pass). -/
def lowerList (cs : List Char) : List Char :=
  cs.map Char.toLower

/-- The split-URL record of `urllib.parse`. -/
structure UrlParts where
  scheme : String
  netloc : String
  path : String
  query : String
  fragment : String

/-- The whitespace/control cleanup `urlsplit` applies first: strip
characters `≤ U+0020` from both ends, remove every tab/CR/LF. -/
def urlsplitClean (url : String) : List Char :=
  (((url.data.dropWhile fun c => c.toNat ≤ 32).reverse.dropWhile
    fun c => c.toNat ≤ 32).reverse).filter fun c => ¬(c = '\t' ∨ c = '\r' ∨ c = '\n')

/-- Scheme detection of `urlsplit`: an initial ASCII letter followed by
scheme characters up to the first `:` is the (lowercased) scheme. -/
def urlsplitScheme (defaultScheme : String) (cs : List Char) : String × List Char :=
  match splitOnFirst ':' cs with
  | some (pre, post) =>
    match pre with
    | p0 :: ptail =>
      if p0.isAlpha ∧ p0.toNat < 128 ∧ ptail.all schemeChar then
        (String.mk (lowerList pre), post)
      else (defaultScheme, cs)
    | [] => (defaultScheme, cs)
  | none => (defaultScheme, cs)

/-- `_splitnetloc`: after a leading `//`, the netloc runs to the next
`/`, `?` or `#`. -/
def urlsplitNetloc (rest : List Char) : List Char × List Char :=
  match rest with
  | '/' :: '/' :: r =>
    let nl := r.takeWhile fun c => ¬(c = '/' ∨ c = '?' ∨ c = '#')
    (nl, r.drop nl.length)
  | _ => ([], rest)

/-- The splitting part of `urllib.parse.urlsplit(url, scheme=defaultScheme)`
(validation aside). -/
def urlsplitRaw (defaultScheme : String) (url : String) : UrlParts :=
  let cs := urlsplitClean url
  let (scheme, rest) := urlsplitScheme defaultScheme cs
  let (nl, rest) := urlsplitNetloc rest
  let (rest, fragment) :=
    match splitOnFirst '#' rest with
    | some (pre, post) => (pre, String.mk post)
    | none => (rest, "")
  let (path, query) :=
    match splitOnFirst '?' rest with
    | some (pre, post) => (String.mk pre, String.mk post)
    | none => (String.mk rest, "")
  ⟨scheme, String.mk nl, path, query, fragment⟩

/-- `urllib.parse.urlsplit(url, scheme=defaultScheme)`: `none` models the
`ValueError("Invalid IPv6 URL")` raised when the netloc holds `[` without
`]` or `]` without `[`. -/
def urlsplitModel (defaultScheme : String) (url : String) : Option UrlParts :=
  let p := urlsplitRaw defaultScheme url
  if (p.netloc.data.contains '[' ∧ ¬p.netloc.data.contains ']') ∨
      (p.netloc.data.contains ']' ∧ ¬p.netloc.data.contains '[') then none
  else some p

/-- `urllib.parse._splitparams` applied to a path: drop a `;params`
suffix of the last path segment. -/
def splitParams (path : String) : String :=
  let cs := path.data
  if cs.contains ';' then
    if cs.contains '/' then
      match splitOnLast '/' cs with
      | some (dir, base) =>
        match splitOnFirst ';' base with
        | some (pre, _) => String.mk (dir ++ '/' :: pre)
        | none => path
      | none => path
    else
      match splitOnFirst ';' cs with
      | some (pre, _) => String.mk pre
      | none => path
  else path

/-- The `path` attribute of `urllib.parse.urlparse(url)` (no default
scheme), i.e. the split path with params removed; `none` when `urlsplit`
raises. -/
def urlparsePath (url : String) : Option String :=
  (urlsplitModel "" url).map fun p => splitParams p.path

/-- `os.path.splitext(p)[1]`: the final extension of the basename,
empty when the basename's leading dots are its only dots. -/
def splitextExt (p : String) : String :=
  let base := match splitOnLast '/' p.data with
    | some (_, b) => b
    | none => p.data
  match splitOnLast '.' base with
  | some (pre, post) => if pre.any (· ≠ '.') then String.mk ('.' :: post) else ""
  | none => ""

/-! ## Image fetcher (`download_image`, lines 97-122) -/

/-- The recognised image extensions of `download_image`. -/
def allowedExts : List String :=
  [".jpg", ".jpeg", ".png", ".gif", ".webp", ".svg"]

/-- The lowercased extension of the URL's path; `none` when the
`urlparse` call of `download_image` (line 102) raises. -/
def urlExt (url : String) : Option String :=
  (urlparsePath url).map fun pth => String.mk (lowerList (splitextExt pth).data)

/-- The local filename `download_image` derives for a URL:
`img_<first 12 hex chars of the URL's MD5><ext>`, the extension falling
back to `.jpg` when unrecognised.  Depends on the URL alone.  `none` when
`urlparse(url)` raises inside the `try` — the catch-all then makes
`download_image` return `None` and no filename is ever derived. -/
def downloadFilename? (url : String) : Option String :=
  (urlExt url).map fun e =>
    "img_" ++ String.mk ((md5Hex url).data.take 12) ++
      (if allowedExts.contains e then e else ".jpg")

/-- The derived filename as a total function: equal to the fallible
derivation wherever that succeeds (`downloadFilename?_eq` below), with
the `.jpg` fallback on the raising URLs.  The oracle-conditioned pipeline
statements use this value only for URLs whose fetch succeeded, and a real
fetch cannot succeed where the derivation raises (the exception precedes
the request), so the fallback branch is never observable there. -/
def downloadFilename (url : String) : String :=
  (downloadFilename? url).getD
    ("img_" ++ String.mk ((md5Hex url).data.take 12) ++ ".jpg")

/-- Insertion into the `replacements` dict: a present key is overwritten
in place, a new key appended. -/
def dictInsert (k v : String) (d : List (String × String)) : List (String × String) :=
  if (d.map Prod.fst).contains k then
    d.map fun p => if p.1 = k then (k, v) else p
  else d ++ [(k, v)]

/-- The download loop of `process_images`: each URL whose fetch succeeds
(per the network oracle `fetch`) contributes its derived filename; a
failed fetch is silently skipped (`download_image` returns `None`). -/
def buildRepsAux (fetch : String → Bool) (acc : List (String × String)) :
    List String → List (String × String)
  | [] => acc
  | u :: us =>
    if fetch u then buildRepsAux fetch (dictInsert u (downloadFilename u) acc) us
    else buildRepsAux fetch acc us

/-- The `replacements` dict built by `process_images` from the extracted
URL list, given the per-URL fetch outcomes. -/
def buildReplacements (fetch : String → Bool) (urls : List String) :
    List (String × String) :=
  buildRepsAux fetch [] urls

/-- `process_images` after extraction: build the replacement map and
rewrite the HTML. -/
def processImagesCore (fetch : String → Bool) (urls : List String) (html : String) :
    String :=
  applyReplacements (buildReplacements fetch urls) html

/-! ## `urllib.parse.urljoin`

Modelled from CPython's `urljoin` (the RFC 3986-style merge of the
modern implementation), with `urlparse`'s `;params` component kept as
part of the path: the two differ only for relative references whose
final segment both carries `;params` and is `.` or `..`, which no caller
here produces. -/

/-- `startswith` via character lists (kernel-reducible). -/
def strStarts (p s : String) : Bool :=
  p.data.isPrefixOf s.data

/-- Schemes treated as relative-capable by `urllib.parse`. -/
def usesRelative : List String :=
  ["", "ftp", "http", "gopher", "nntp", "imap", "wais", "file", "https",
   "shttp", "mms", "prospero", "rtsp", "rtspu", "sftp", "svn", "svn+ssh",
   "ws", "wss"]

/-- Schemes using a network location, per `urllib.parse`. -/
def usesNetloc : List String :=
  ["", "ftp", "http", "gopher", "nntp", "telnet", "imap", "wais", "file",
   "mms", "https", "shttp", "snews", "prospero", "rtsp", "rtspu", "rsync",
   "svn", "svn+ssh", "sftp", "nfs", "git", "git+ssh", "ws", "wss"]

/-- `urllib.parse.urlunsplit`. -/
def urlunsplitModel (p : UrlParts) : String :=
  let url := p.path
  let url :=
    if p.netloc ≠ "" ∨ strStarts "//" url then
      let url := if url ≠ "" ∧ ¬strStarts "/" url then "/" ++ url else url
      "//" ++ p.netloc ++ url
    else url
  let url := if p.scheme ≠ "" then p.scheme ++ ":" ++ url else url
  let url := if p.query ≠ "" then url ++ "?" ++ p.query else url
  if p.fragment ≠ "" then url ++ "#" ++ p.fragment else url

/-- The join of the two split URLs, as `urljoin` computes it once both
splits returned. -/
def urljoinParts (url : String) (b u : UrlParts) : String :=
    if u.scheme ≠ b.scheme ∨ ¬usesRelative.contains u.scheme then url
    else if usesNetloc.contains u.scheme ∧ u.netloc ≠ "" then
      urlunsplitModel ⟨u.scheme, u.netloc, u.path, u.query, u.fragment⟩
    else
      let netloc :=
        if usesNetloc.contains u.scheme ∧ u.netloc = "" then b.netloc else u.netloc
      if u.path = "" then
        urlunsplitModel
          ⟨u.scheme, netloc, b.path, if u.query = "" then b.query else u.query,
           u.fragment⟩
      else
        let baseParts := List.splitOn '/' b.path.data
        let baseParts :=
          if baseParts.getLast? ≠ some [] then baseParts.dropLast else baseParts
        let segments :=
          if strStarts "/" u.path then List.splitOn '/' u.path.data
          else
            match baseParts ++ List.splitOn '/' u.path.data with
            | [] => []
            | [s] => [s]
            | s0 :: rest =>
              s0 :: ((rest.dropLast.filter (· ≠ [])) ++ [rest.getLast?.getD []])
        let resolved := segments.foldl
          (fun acc seg =>
            if seg = ['.', '.'] then acc.dropLast
            else if seg = ['.'] then acc
            else acc ++ [seg]) []
        let resolved :=
          if segments.getLast? = some ['.'] ∨ segments.getLast? = some ['.', '.'] then
            resolved ++ [[]]
          else resolved
        let joined := List.intercalate ['/'] resolved
        let path := if joined = [] then "/" else String.mk joined
        urlunsplitModel ⟨u.scheme, netloc, path, u.query, u.fragment⟩

/-- `urllib.parse.urljoin(base, url)`: `none` when either `urlsplit`
raises (the source never guards the call, so the `ValueError`
propagates). -/
def urljoinModel (base url : String) : Option String :=
  if base = "" then some url
  else if url = "" then some base
  else
    match urlsplitModel "" base with
    | none => none
    | some b =>
      match urlsplitModel b.scheme url with
      | none => none
      | some u => some (urljoinParts url b u)

/-! ## Image reference extractor (`ImageExtractor`, lines 77-94)

The stdlib `html.parser.HTMLParser` tokenisation (which by design does
not raise on malformed input) is abstracted as the list of start-tag
events it delivers — lowercased tag name plus attribute list, `none` the
value of a valueless attribute; `handle_starttag` itself is translated
directly. -/

/-- A start-tag event as `HTMLParser` delivers it. -/
abbrev TagEvent := String × List (String × Option String)

/-- `dict(attrs).get(k, "")` followed by the truthiness test: the last
binding wins; an absent or valueless or empty `src` is skipped. -/
def attrsSrc (attrs : List (String × Option String)) : Option String :=
  match (attrs.reverse.find? fun p => p.1 = "src").map Prod.snd with
  | some (some s) => if s = "" then none else some s
  | _ => none

/-- `ImageExtractor.handle_starttag`, acting on the accumulated image
list; `none` models the `ValueError` escaping from the unguarded
`urljoin` call (line 92), which aborts the whole `feed`. -/
def handleStarttag (baseUrl : String) (images : List String) (ev : TagEvent) :
    Option (List String) :=
  if ev.1 = "img" then
    match attrsSrc ev.2 with
    | some src =>
      if strStarts "data:" src then some images
      else if baseUrl ≠ "" ∧ ¬(strStarts "http://" src ∨ strStarts "https://" src) then
        match urljoinModel baseUrl src with
        | none => none
        | some src' =>
          if strStarts "http://" src' ∨ strStarts "https://" src' then
            some (images ++ [src'])
          else some images
      else
        if strStarts "http://" src ∨ strStarts "https://" src then some (images ++ [src])
        else some images
    | none => some images
  else some images

/-- The event scan of `feed`: an exception from any handler aborts it. -/
def extractAux (baseUrl : String) (images : List String) :
    List TagEvent → Option (List String)
  | [] => some images
  | ev :: evs =>
    match handleStarttag baseUrl images ev with
    | some images' => extractAux baseUrl images' evs
    | none => none

/-- `ImageExtractor(base_url).feed(html)` over the start-tag events:
the `images` list after the scan, `none` when a handler raised. -/
def extractImages (baseUrl : String) (events : List TagEvent) :
    Option (List String) :=
  extractAux baseUrl [] events

/-- The document shell of `create_epub`: the f-string with `title`
interpolated (unescaped) into `<title>` and `<h1>`, and the rewritten
body between. -/
def fullHtml (title htmlWithLocalImages : String) : String :=
  "<!DOCTYPE html>\n<html>\n<head>\n    <meta charset=\"UTF-8\">\n    <title>" ++
    title ++
    "</title>\n</head>\n<body>\n    <h1>" ++
    title ++
    "</h1>\n    " ++
    htmlWithLocalImages ++
    "\n</body>\n</html>"

/-- The pandoc argument vector built by `create_epub`. -/
def pandocCmd (htmlPath outputPath title tempDir : String) : List String :=
  ["pandoc", htmlPath, "-o", outputPath, "--standalone", "-f", "html",
   "-t", "epub", "--metadata=title:" ++ title, "--resource-path=" ++ tempDir]

/-! ## Pipeline orchestrator (`create_epub` + `main`, lines 151-284)

The filesystem is a list of existing paths; subprocess, network, SMTP and
configuration outcomes are explicit oracles.  `try/finally` is translated
by performing the `finally` cleanup on every branch. -/

/-- Exceptions escaping `create_epub` that `main` handles: `ioErr` is any
exception whose message reaches the generic `except Exception` handler
(an `OSError` while assembling, or the `ValueError` from URL
resolution). -/
inductive PipeErr where
  | ioErr (msg : String)
  | convFail (stderr : String)
  | convTimeout

/-- Outcome of the pandoc subprocess. -/
inductive ConvOutcome where
  | ok
  | fail (stderr : String)
  | timeout

/-- Outcome of `send_email`. -/
inductive EmailOutcome where
  | ok
  | authError
  | smtpError (msg : String)

/-- Outcome of `load_config`. -/
inductive ConfigOutcome where
  | ok
  | notFound
  | missingKeys (keys : String)

/-- The per-run oracles: fresh temporary names, the parse events of the
content (the stdlib HTML tokenisation abstracted, as for the extractor),
per-URL fetch outcomes, whether the intermediate HTML write succeeds
(disk errors), and the converter / delivery / configuration outcomes. -/
structure Oracles where
  workDir : String
  epubPath : String
  events : List TagEvent
  fetch : String → Bool
  writeOk : Bool
  writeErrMsg : String
  conv : ConvOutcome
  email : EmailOutcome
  config : ConfigOutcome

/-- `shutil.rmtree(dir, ignore_errors=True)` on the path-set model:
removes the directory and everything under it (OS-level removal failures,
which `ignore_errors` suppresses, are outside the model). -/
def removeTreeFS (dir : String) (fs : List String) : List String :=
  fs.filter fun p => ¬(p = dir ∨ (dir ++ "/").data.isPrefixOf p.data)

/-- `os.remove p` (guarded by an existence check in the source). -/
def removeFileFS (p : String) (fs : List String) : List String :=
  fs.filter fun q => q ≠ p

/-- `create_epub(title, content, url, output_path)` over the filesystem
model: make the workspace, run `process_images` (downloaded files land in
the workspace), write `article.html`, run pandoc; the `finally` removes
the workspace on every branch. -/
def createEpubRun (oc : Oracles) (title content baseUrl outputPath : String)
    (fs : List String) : Except PipeErr Unit × List String :=
  let dir := oc.workDir
  let fs := dir :: fs
  match extractImages baseUrl oc.events with
  | none =>
    -- `ValueError("Invalid IPv6 URL")` from `feed`; the `finally` still
    -- removes the workspace, and `main`'s generic handler answers it
    (.error (.ioErr "Invalid IPv6 URL"), removeTreeFS dir fs)
  | some urls =>
    let reps := buildReplacements oc.fetch urls
    let fs := (reps.map fun p => dir ++ "/" ++ p.2) ++ fs
    -- the rewritten document written to `article.html`; the path-set
    -- filesystem model tracks the file, not its contents
    let _html := fullHtml title (applyReplacements reps content)
    if oc.writeOk = false then (.error (.ioErr oc.writeErrMsg), removeTreeFS dir fs)
    else
      let fs := (dir ++ "/article.html") :: fs
      match oc.conv with
      | .timeout => (.error .convTimeout, removeTreeFS dir fs)
      | .fail stderr => (.error (.convFail stderr), removeTreeFS dir fs)
      | .ok => (.ok (), removeTreeFS dir (outputPath :: fs))

/-- The error `Response` strings `main`'s handlers produce for the
exceptions escaping `create_epub`: `subprocess.TimeoutExpired` has its own
handler; `RuntimeError("pandoc failed: ...")`, `ValueError` and `OSError`
fall to the generic `Exception` handler. -/
def pipeErrResponse : PipeErr → Response
  | .convTimeout => ⟨false, some "pandoc timed out - article may be too large"⟩
  | .convFail stderr => ⟨false, some ("Unexpected error: pandoc failed: " ++ stderr)⟩
  | .ioErr msg => ⟨false, some ("Unexpected error: " ++ msg)⟩

/-- A decoded incoming message: the JSON object's fields.  (The
extension's messages carry string field values; non-string values are
outside the model.)  `none` models `read_message` returning `None` at
end of stream. -/
abbrev Message := Option (List (String × String))

/-- `dict.get(k, default)`. -/
def msgGet (fields : List (String × String)) (k default : String) : String :=
  ((fields.reverse.find? fun p => p.1 = k).map Prod.snd).getD default

/-- `main()`: read and validate the message, load the config, build the
EPUB, deliver it, and map every failure to an error `Response`; the
`finally` removes the EPUB artifact.  Returns the `Response` sent and the
final filesystem. -/
def mainRun (oc : Oracles) (msg : Message) (fs : List String) :
    Response × List String :=
  match msg with
  | none => (⟨false, some "No message received"⟩, fs)
  | some fields =>
    if fields = [] then (⟨false, some "No message received"⟩, fs)
    else
      let title := msgGet fields "title" "Untitled"
      let content := msgGet fields "content" ""
      let url := msgGet fields "url" ""
      if content = "" then (⟨false, some "No content provided"⟩, fs)
      else
        match oc.config with
        | .notFound =>
          (⟨false, some ("Config file not found: ~/.config/kindle-beam/config.json\n" ++
            "Create it with: smtp_user, smtp_pass, kindle_email")⟩, fs)
        | .missingKeys ks =>
          (⟨false, some ("Unexpected error: Missing config keys: " ++ ks)⟩, fs)
        | .ok =>
          let epub := oc.epubPath
          match createEpubRun oc title content url epub fs with
          | (.error e, fs') => (pipeErrResponse e, removeFileFS epub fs')
          | (.ok _, fs') =>
            match oc.email with
            | .authError =>
              (⟨false, some "SMTP authentication failed - check your App Password"⟩,
               removeFileFS epub fs')
            | .smtpError m =>
              (⟨false, some ("Email failed: " ++ m)⟩, removeFileFS epub fs')
            | .ok => (⟨true, none⟩, removeFileFS epub fs')

/-! ## Spec-side auxiliary definitions (for refinement statements) -/

/-- First-occurrence deduplication, in first-seen order. -/
def dedupKeepFirst (l : List String) : List String :=
  go [] l
where
  /-- Walk with the set of already-seen elements. -/
  go (seen : List String) : List String → List String
    | [] => []
    | x :: xs => if seen.contains x then go seen xs else x :: go (x :: seen) xs

/-! ## General lemmas -/

theorem unpackLE_packLE {n : Nat} (h : n < 4294967296) :
    unpackLE (n % 256) (n / 256 % 256) (n / 65536 % 256) (n / 16777216 % 256) = n := by
  unfold unpackLE
  omega

/-! ## C3: framing short reads -/

/-- C3, as stated, fails: a length prefix declaring 10 bytes followed by
only the two bytes `7b 7d` makes `read_message` return the message parsed
from the short read — no protocol error is raised. -/
theorem readMessage_short_read_counterexample :
    (([123, 125] : List Nat).length < 10) ∧
      readMessage (packLE 10 ++ [123, 125]) = .ok (some (.obj [])) :=
  ⟨by decide, rfl⟩

/-- C3 (amended): when fewer than the declared `L` bytes follow the
4-byte prefix, `read_message` silently UTF-8-decodes and JSON-parses
exactly the bytes present — returning the parsed message when they form
a valid document and raising only a Unicode/JSON decode error otherwise,
never a protocol error; and at end-of-input before any bytes are read it
returns `None` (end of stream). -/
theorem readMessage_short_read_amended :
    (∀ (L : Nat) (r : List Nat), L < 4294967296 → r.length < L →
      readMessage (packLE L ++ r) = decodePayload r) ∧
    readMessage [] = .ok none := by
  refine ⟨fun L r hL hr => ?_, rfl⟩
  have hlen : (packLE L).length = 4 := rfl
  simp only [readMessage, pyRead]
  rw [List.take_left' hlen, List.drop_left' hlen]
  simp only [packLE]
  rw [unpackLE_packLE hL, List.take_of_length_le (Nat.le_of_lt hr)]
  simp

/-- Witness for the amended C3 at the concrete short stream. -/
theorem readMessage_short_read_amended_witness :
    (10 : Nat) < 4294967296 ∧ ([123, 125] : List Nat).length < 10 ∧
      readMessage (packLE 10 ++ [123, 125]) = decodePayload [123, 125] :=
  ⟨by decide, by decide,
    readMessage_short_read_amended.1 10 [123, 125] (by decide) (by decide)⟩

/-! ## C10: verbatim title interpolation -/

/-- C10: the supplied title is interpolated verbatim (no HTML escaping)
into both the `<title>` element and the `<h1>` heading prepended to the
body, and into pandoc's `--metadata=title:` argument; a title containing
markup characters appears as raw markup in the intermediate document. -/
theorem fullHtml_title_verbatim :
    ∀ (t c htmlPath outPath dir : String),
      ("<title>" ++ t ++ "</title>").data <:+: (fullHtml t c).data ∧
      ("<h1>" ++ t ++ "</h1>").data <:+: (fullHtml t c).data ∧
      ("--metadata=title:" ++ t) ∈ pandocCmd htmlPath outPath t dir ∧
      fullHtml "<b>&" "x" =
        "<!DOCTYPE html>\n<html>\n<head>\n    <meta charset=\"UTF-8\">\n    <title><b>&</title>\n</head>\n<body>\n    <h1><b>&</h1>\n    x\n</body>\n</html>" := by
  intro t c htmlPath outPath dir
  refine
    ⟨⟨"<!DOCTYPE html>\n<html>\n<head>\n    <meta charset=\"UTF-8\">\n    ".data,
      ("\n</head>\n<body>\n    <h1>" ++ t ++ "</h1>\n    " ++ c ++ "\n</body>\n</html>").data,
      ?_⟩,
     ⟨("<!DOCTYPE html>\n<html>\n<head>\n    <meta charset=\"UTF-8\">\n    <title>" ++ t ++
        "</title>\n</head>\n<body>\n    ").data,
      ("\n    " ++ c ++ "\n</body>\n</html>").data, ?_⟩,
     ?_, by decide⟩
  · have e1 :
        ("<!DOCTYPE html>\n<html>\n<head>\n    <meta charset=\"UTF-8\">\n    <title>" : String) =
          "<!DOCTYPE html>\n<html>\n<head>\n    <meta charset=\"UTF-8\">\n    " ++ "<title>" := by
      decide
    have e2 :
        ("</title>\n</head>\n<body>\n    <h1>" : String) =
          "</title>" ++ "\n</head>\n<body>\n    <h1>" := by decide
    simp only [fullHtml, e1, e2, String.data_append, List.append_assoc]
  · have e3 :
        ("</title>\n</head>\n<body>\n    <h1>" : String) =
          "</title>\n</head>\n<body>\n    " ++ "<h1>" := by decide
    have e4 : ("</h1>\n    " : String) = "</h1>" ++ "\n    " := by decide
    simp only [fullHtml, e3, e4, String.data_append, List.append_assoc]
  · simp [pandocCmd]

/-! ## C2, C5, C7: orchestrator branches and cleanup -/

theorem workDir_not_mem_removeTreeFS (dir : String) (fs : List String) :
    dir ∉ removeTreeFS dir fs := by
  simp [removeTreeFS]

theorem not_mem_removeFileFS {q : String} (p : String) {fs : List String}
    (h : q ∉ fs) : q ∉ removeFileFS p fs := by
  intro hm
  exact h (List.mem_of_mem_filter hm)

/-- Every branch of `create_epub` leaves a filesystem in which the
workspace directory is absent: the `finally` cleanup runs on every exit
path. -/
theorem createEpubRun_no_workdir (oc : Oracles) (title content baseUrl outputPath : String)
    (fs : List String) :
    oc.workDir ∉ (createEpubRun oc title content baseUrl outputPath fs).2 := by
  unfold createEpubRun
  split
  · exact workDir_not_mem_removeTreeFS _ _
  · split
    · exact workDir_not_mem_removeTreeFS _ _
    · split <;> exact workDir_not_mem_removeTreeFS _ _

/-- C2: after any pipeline run — success, converter failure, converter
timeout, delivery failure, config failure, validation failure or an I/O
error while assembling — the per-request workspace directory does not
exist (it was fresh for the request and is removed by `create_epub`'s
`finally` wherever it was created at all). -/
theorem mainRun_no_workspace (oc : Oracles) (msg : Message) (fs : List String)
    (hfresh : oc.workDir ∉ fs) : oc.workDir ∉ (mainRun oc msg fs).2 := by
  match msg with
  | none => exact hfresh
  | some fields =>
    unfold mainRun
    by_cases hf : fields = []
    · simpa [hf] using hfresh
    · simp only [hf, if_false]
      by_cases hc : msgGet fields "content" "" = ""
      · simpa [hc] using hfresh
      · simp only [hc, if_false]
        match hcfg : oc.config with
        | .notFound => exact hfresh
        | .missingKeys ks => exact hfresh
        | .ok =>
          have hwd := createEpubRun_no_workdir oc (msgGet fields "title" "Untitled")
            (msgGet fields "content" "") (msgGet fields "url" "") oc.epubPath fs
          match hrun : createEpubRun oc (msgGet fields "title" "Untitled")
              (msgGet fields "content" "") (msgGet fields "url" "") oc.epubPath fs with
          | (.error e, fs') =>
            rw [hrun] at hwd
            exact not_mem_removeFileFS _ hwd
          | (.ok _, fs') =>
            rw [hrun] at hwd
            match oc.email with
            | .authError => exact not_mem_removeFileFS _ hwd
            | .smtpError m => exact not_mem_removeFileFS _ hwd
            | .ok => exact not_mem_removeFileFS _ hwd

/-- Witness for C2 at a concrete run (simple successful pipeline). -/
theorem mainRun_no_workspace_witness :
    ("/tmp/kb_work" : String) ∉ ([] : List String) ∧
      ("/tmp/kb_work" : String) ∉
        (mainRun ⟨"/tmp/kb_work", "/tmp/kb.epub", [], fun _ => false, true, "", .ok, .ok, .ok⟩
          (some [("content", "<p>x</p>")]) []).2 :=
  ⟨by decide,
    mainRun_no_workspace
      ⟨"/tmp/kb_work", "/tmp/kb.epub", [], fun _ => false, true, "", .ok, .ok, .ok⟩
      (some [("content", "<p>x</p>")]) [] (by decide)⟩

/-- C5, as stated, fails on the empty request object: `\x7b\x7d` decodes
to an empty (falsy) dict, so `main` answers "No message received" — which
does not contain "content" — although the `content` field is absent. -/
theorem emptyRequest_counterexample :
    mainRun ⟨"/tmp/kb_work", "/tmp/kb.epub", [], fun _ => false, true, "", .ok, .ok, .ok⟩
        (some []) [] =
      (⟨false, some "No message received"⟩, []) ∧
    ¬("content".data <:+: "No message received".data) :=
  ⟨rfl, by decide⟩

/-- C5 (amended): for every request object that is nonempty (a falsy,
i.e. empty, decoded dict is answered "No message received" instead) and
whose `content` field is empty or absent, the pipeline answers
`success = false` with an error containing "content", and the filesystem
is untouched — no workspace directory is ever created. -/
theorem emptyContent_response (oc : Oracles) (fields : List (String × String))
    (fs : List String) (hne : fields ≠ []) (hc : msgGet fields "content" "" = "") :
    mainRun oc (some fields) fs = (⟨false, some "No content provided"⟩, fs) ∧
      "content".data <:+: "No content provided".data := by
  refine ⟨?_, by decide⟩
  simp [mainRun, hne, hc]

/-- Witness for the amended C5: a request carrying only a title. -/
theorem emptyContent_response_witness :
    ([("title", "t")] : List (String × String)) ≠ [] ∧
      msgGet [("title", "t")] "content" "" = "" ∧
      (mainRun ⟨"d", "e", [], fun _ => false, true, "", .ok, .ok, .ok⟩
          (some [("title", "t")]) [] =
        (⟨false, some "No content provided"⟩, []) ∧
        "content".data <:+: "No content provided".data) :=
  ⟨by decide, by decide,
    emptyContent_response ⟨"d", "e", [], fun _ => false, true, "", .ok, .ok, .ok⟩
      [("title", "t")] [] (by decide) (by decide)⟩

/-- C7: when the converter subprocess exceeds its 60-second timeout, the
request fails with a `Response` whose error contains "timed out", and the
workspace cleanup still runs (the workspace is absent afterwards).  The
hypotheses encode the scenario's preconditions: a validated request, a
loaded config, a successful image scan and intermediate write — the path
on which pandoc is reached at all — and the timeout itself. -/
theorem convTimeout_response (oc : Oracles) (fields : List (String × String))
    (fs : List String) (urls : List String) (hne : fields ≠ [])
    (hc : msgGet fields "content" "" ≠ "")
    (hev : extractImages (msgGet fields "url" "") oc.events = some urls)
    (hcfg : oc.config = .ok) (hw : oc.writeOk = true) (htimeout : oc.conv = .timeout) :
    (mainRun oc (some fields) fs).1 =
      ⟨false, some "pandoc timed out - article may be too large"⟩ ∧
      "timed out".data <:+: "pandoc timed out - article may be too large".data ∧
      oc.workDir ∉ (mainRun oc (some fields) fs).2 := by
  have hrun : createEpubRun oc (msgGet fields "title" "Untitled")
      (msgGet fields "content" "") (msgGet fields "url" "") oc.epubPath fs =
      (.error .convTimeout,
        removeTreeFS oc.workDir
          ((oc.workDir ++ "/article.html") ::
            (((buildReplacements oc.fetch urls).map
                fun p => oc.workDir ++ "/" ++ p.2) ++ oc.workDir :: fs))) := by
    simp [createEpubRun, hev, hw, htimeout]
  refine ⟨?_, by decide, ?_⟩
  · simp [mainRun, hne, hc, hcfg, hrun, pipeErrResponse]
  · simp only [mainRun, hne, hc, hcfg, hrun]
    simp only [if_false]
    exact not_mem_removeFileFS _ (workDir_not_mem_removeTreeFS _ _)

/-- Witness for C7 at a concrete timed-out run. -/
theorem convTimeout_response_witness :
    (([("content", "<p>x</p>")] : List (String × String)) ≠ [] ∧
      msgGet [("content", "<p>x</p>")] "content" "" ≠ "" ∧
      extractImages (msgGet [("content", "<p>x</p>")] "url" "") [] = some []) ∧
      ((mainRun ⟨"d", "e", [], fun _ => false, true, "", .timeout, .ok, .ok⟩
          (some [("content", "<p>x</p>")]) []).1 =
        ⟨false, some "pandoc timed out - article may be too large"⟩ ∧
        "timed out".data <:+: "pandoc timed out - article may be too large".data ∧
        ("d" : String) ∉
          (mainRun ⟨"d", "e", [], fun _ => false, true, "", .timeout, .ok, .ok⟩
            (some [("content", "<p>x</p>")]) []).2) :=
  ⟨⟨by decide, by decide, rfl⟩,
    convTimeout_response ⟨"d", "e", [], fun _ => false, true, "", .timeout, .ok, .ok⟩
      [("content", "<p>x</p>")] [] [] (by decide) (by decide) rfl rfl rfl rfl⟩

/-! ## C1: the rewriter's substitution, in general -/

/-- Any fuel of at least the input length computes the same scan. -/
theorem subSrcAux_fuel (url repl : List Char) :
    ∀ (f g : Nat) (cs : List Char), cs.length ≤ f → cs.length ≤ g →
      subSrcAux url repl f cs = subSrcAux url repl g cs := by
  intro f
  induction f with
  | zero =>
    intro g cs hf _
    have : cs = [] := List.length_eq_zero.mp (Nat.le_zero.mp hf)
    subst this
    cases g <;> rfl
  | succ f ih =>
    intro g cs hf hg
    match cs with
    | [] => cases g <;> rfl
    | c :: cs' =>
      match g with
      | g' + 1 =>
        simp only [subSrcAux]
        cases hE : (if ['s', 'r', 'c'].isPrefixOf (c :: cs') then
            matchAfterSrcLen url ((c :: cs').drop 3) else none) with
        | none =>
          show c :: subSrcAux url repl f cs' = c :: subSrcAux url repl g' cs'
          exact congrArg _ (ih g' cs' (by simpa using hf) (by simpa using hg))
        | some n =>
          show repl ++ subSrcAux url repl f ((c :: cs').drop (3 + n)) =
            repl ++ subSrcAux url repl g' ((c :: cs').drop (3 + n))
          exact congrArg _ (ih g' ((c :: cs').drop (3 + n))
            (by simp at hf ⊢; omega) (by simp at hg ⊢; omega))

theorem subSrcRun_skip (url repl : List Char) (c : Char) (cs : List Char)
    (h : ['s', 'r', 'c'].isPrefixOf (c :: cs) = false) :
    subSrcRun url repl (c :: cs) = c :: subSrcRun url repl cs := by
  show subSrcAux url repl (cs.length + 1) (c :: cs) = _
  simp only [subSrcAux, h]
  rfl

theorem subSrcRun_match (url repl cs : List Char) (n : Nat)
    (h : matchAfterSrcLen url cs = some n) :
    subSrcRun url repl ('s' :: 'r' :: 'c' :: cs) =
      repl ++ subSrcRun url repl (cs.drop n) := by
  show subSrcAux url repl (cs.length + 3) ('s' :: 'r' :: 'c' :: cs) = _
  have hpre : ['s', 'r', 'c'].isPrefixOf ('s' :: 'r' :: 'c' :: cs) = true := by
    simp [List.isPrefixOf]
  simp only [subSrcAux, hpre, eq_self_iff_true, if_true, List.drop_succ_cons,
    List.drop_zero]
  rw [h]
  show repl ++ subSrcAux url repl (cs.length + 2) (('s' :: 'r' :: 'c' :: cs).drop (3 + n)) = _
  have hdrop : ('s' :: 'r' :: 'c' :: cs).drop (3 + n) = cs.drop n := by
    rw [Nat.add_comm 3 n]
    simp [List.drop_succ_cons]
  rw [hdrop]
  exact congrArg _ (subSrcAux_fuel url repl _ _ _
    (by simp [List.length_drop]; omega) (le_refl _))

theorem matchUrlTailLen_append_quote (url rest : List Char) :
    matchUrlTailLen url (url ++ '"' :: rest) = some (url.length + 1) := by
  have hp : url.isPrefixOf (url ++ '"' :: rest) = true := by
    rw [List.isPrefixOf_iff_prefix]
    exact List.prefix_append _ _
  simp only [matchUrlTailLen, hp, if_true, List.drop_left]
  rfl

theorem matchUrlTailLen_append_nonquote (url rest : List Char) (x : Char)
    (hx : reQuote x = false) :
    matchUrlTailLen url (url ++ x :: rest) = some url.length := by
  have hp : url.isPrefixOf (url ++ x :: rest) = true := by
    rw [List.isPrefixOf_iff_prefix]
    exact List.prefix_append _ _
  simp only [matchUrlTailLen, hp, if_true, List.drop_left, hx]
  rfl

/-- The pattern tail `\s*=\s*["']?<url>["']?` matches `="<url>"...`,
consuming both quotes. -/
theorem matchAfterSrcLen_quoted (url rest : List Char) :
    matchAfterSrcLen url ('=' :: '"' :: (url ++ '"' :: rest)) =
      some (url.length + 3) := by
  have step : matchAfterSrcLen url ('=' :: '"' :: (url ++ '"' :: rest)) =
      match matchUrlTailLen url (url ++ '"' :: rest) with
      | some n => some (1 + 1 + n)
      | none => (matchUrlTailLen url ('"' :: (url ++ '"' :: rest))).map (1 + ·) := rfl
  rw [step, matchUrlTailLen_append_quote]
  show some (1 + 1 + (url.length + 1)) = _
  congr 1
  omega

/-- The same match when the quoted value continues past the URL with a
non-quote character: the trailing optional quote matches nothing, so only
`="<url>` is consumed. -/
theorem matchAfterSrcLen_quoted_cont (url rest : List Char) (x : Char)
    (hx : reQuote x = false) :
    matchAfterSrcLen url ('=' :: '"' :: (url ++ x :: rest)) =
      some (url.length + 2) := by
  have step : matchAfterSrcLen url ('=' :: '"' :: (url ++ x :: rest)) =
      match matchUrlTailLen url (url ++ x :: rest) with
      | some n => some (1 + 1 + n)
      | none => (matchUrlTailLen url ('"' :: (url ++ x :: rest))).map (1 + ·) := rfl
  rw [step, matchUrlTailLen_append_nonquote url rest x hx]
  show some (1 + 1 + url.length) = _
  congr 1
  omega

/-- The unquoted match `=<url>` followed by a non-quote character, for a
URL starting with `h` (as every extracted URL does). -/
theorem matchAfterSrcLen_bare (u rest : List Char) (x : Char)
    (hx : reQuote x = false) :
    matchAfterSrcLen ('h' :: u) ('=' :: (('h' :: u) ++ x :: rest)) =
      some (u.length + 2) := by
  have step : matchAfterSrcLen ('h' :: u) ('=' :: (('h' :: u) ++ x :: rest)) =
      (matchUrlTailLen ('h' :: u) (('h' :: u) ++ x :: rest)).map (1 + ·) := rfl
  rw [step, matchUrlTailLen_append_nonquote ('h' :: u) rest x hx]
  show some (1 + (u.length + 1)) = _
  congr 1
  omega

/-- A head other than `s` never starts a match. -/
theorem subSrcRun_skip' (url repl : List Char) (c : Char) (cs : List Char)
    (h : ('s' == c) = false) :
    subSrcRun url repl (c :: cs) = c :: subSrcRun url repl cs :=
  subSrcRun_skip url repl c cs (by simp [List.isPrefixOf, h])

/-- The scan of `="<url>">`: one full quoted replacement, then the tag
close. -/
theorem subSrcRun_core_exact (u r : List Char) :
    subSrcRun u r
      ('<' :: 'i' :: 'm' :: 'g' :: ' ' :: 's' :: 'r' :: 'c' ::
        ('=' :: '"' :: (u ++ '"' :: '>' :: []))) =
      '<' :: 'i' :: 'm' :: 'g' :: ' ' :: (r ++ ['>']) := by
  rw [subSrcRun_skip' u r '<' _ (by decide), subSrcRun_skip' u r 'i' _ (by decide),
    subSrcRun_skip' u r 'm' _ (by decide), subSrcRun_skip' u r 'g' _ (by decide),
    subSrcRun_skip' u r ' ' _ (by decide),
    subSrcRun_match u r _ _ (matchAfterSrcLen_quoted u ('>' :: []))]
  have hdrop : ('=' :: '"' :: (u ++ '"' :: '>' :: [])).drop (u.length + 3) = '>' :: [] := by
    have hsh : ('=' :: '"' :: (u ++ '"' :: '>' :: [])) =
        (('=' :: '"' :: u) ++ ['"']) ++ ['>'] := by simp
    rw [hsh, List.drop_left' (by simp)]
  rw [hdrop, subSrcRun_skip' u r '>' _ (by decide)]
  rfl

/-- The scan of `="<url>pad">`: the match stops after the URL (the
trailing optional quote matches nothing), replacing only the prefix. -/
theorem subSrcRun_core_prefix (u r : List Char) :
    subSrcRun u r
      ('<' :: 'i' :: 'm' :: 'g' :: ' ' :: 's' :: 'r' :: 'c' ::
        ('=' :: '"' :: (u ++ 'p' :: 'a' :: 'd' :: '"' :: '>' :: []))) =
      '<' :: 'i' :: 'm' :: 'g' :: ' ' :: (r ++ ('p' :: 'a' :: 'd' :: '"' :: '>' :: [])) := by
  rw [subSrcRun_skip' u r '<' _ (by decide), subSrcRun_skip' u r 'i' _ (by decide),
    subSrcRun_skip' u r 'm' _ (by decide), subSrcRun_skip' u r 'g' _ (by decide),
    subSrcRun_skip' u r ' ' _ (by decide),
    subSrcRun_match u r _ _
      (matchAfterSrcLen_quoted_cont u ('a' :: 'd' :: '"' :: '>' :: []) 'p' (by decide))]
  have hdrop : ('=' :: '"' :: (u ++ 'p' :: 'a' :: 'd' :: '"' :: '>' :: [])).drop
      (u.length + 2) = 'p' :: 'a' :: 'd' :: '"' :: '>' :: [] := by
    have hsh : ('=' :: '"' :: (u ++ 'p' :: 'a' :: 'd' :: '"' :: '>' :: [])) =
        ('=' :: '"' :: u) ++ ('p' :: 'a' :: 'd' :: '"' :: '>' :: []) := by simp
    rw [hsh, List.drop_left' (by simp)]
  rw [hdrop, subSrcRun_skip' u r 'p' _ (by decide), subSrcRun_skip' u r 'a' _ (by decide),
    subSrcRun_skip' u r 'd' _ (by decide), subSrcRun_skip' u r '"' _ (by decide),
    subSrcRun_skip' u r '>' _ (by decide)]
  rfl

/-- The scan of unquoted `src=<url>` occurring in running text: also
replaced. -/
theorem subSrcRun_core_bare (u' r : List Char) :
    subSrcRun ('h' :: u') r
      ('s' :: 'e' :: 'e' :: ' ' :: 's' :: 'r' :: 'c' ::
        ('=' :: (('h' :: u') ++ ' ' :: 'o' :: 'k' :: []))) =
      's' :: 'e' :: 'e' :: ' ' :: (r ++ (' ' :: 'o' :: 'k' :: [])) := by
  rw [subSrcRun_skip ('h' :: u') r 's' _ (by simp [List.isPrefixOf]),
    subSrcRun_skip' ('h' :: u') r 'e' _ (by decide),
    subSrcRun_skip' ('h' :: u') r 'e' _ (by decide),
    subSrcRun_skip' ('h' :: u') r ' ' _ (by decide),
    subSrcRun_match ('h' :: u') r _ _
      (matchAfterSrcLen_bare u' ('o' :: 'k' :: []) ' ' (by decide))]
  have hdrop : ('=' :: (('h' :: u') ++ ' ' :: 'o' :: 'k' :: [])).drop (u'.length + 2) =
      ' ' :: 'o' :: 'k' :: [] := by
    have hsh : ('=' :: (('h' :: u') ++ ' ' :: 'o' :: 'k' :: [])) =
        ('=' :: 'h' :: u') ++ (' ' :: 'o' :: 'k' :: []) := by simp
    rw [hsh, List.drop_left' (by simp)]
  rw [hdrop, subSrcRun_skip' ('h' :: u') r ' ' _ (by decide),
    subSrcRun_skip' ('h' :: u') r 'o' _ (by decide),
    subSrcRun_skip' ('h' :: u') r 'k' _ (by decide)]
  rfl

/-- C1, as stated, fails: a `src` attribute whose value merely has a
mapped URL as a proper prefix IS altered — the pattern's trailing
optional quote matches nothing and the URL prefix together with the
opening quote is replaced, corrupting the attribute. -/
theorem rewriter_prefix_counterexample :
    applyReplacements [("http://x/a.jpg", "local.jpg")]
        "<img src=\"http://x/a.jpgpad\">" = "<img src=\"local.jpg\"pad\">" ∧
    applyReplacements [("http://x/a.jpg", "local.jpg")]
        "<img src=\"http://x/a.jpgpad\">" ≠ "<img src=\"http://x/a.jpgpad\">" :=
  ⟨by decide, by decide⟩

/-- C1 (amended): the rewriter performs a purely textual substitution of
`src`, optional whitespace, `=`, optional whitespace, optionally-quoted
URL, anywhere in the string.  A `src` attribute whose value exactly
equals a mapped URL becomes `src="<local>"`; but a `src` value having the
URL as a proper prefix is partially rewritten (its URL prefix and opening
quote are replaced, the remainder kept), and a `src=<URL>` occurrence
outside any attribute is rewritten as well — the substitution is not
attribute-scoped. -/
theorem rewriter_textual_substitution (url loc : String)
    (h : strStarts "http://" url = true) :
    subSrc url loc ("<img src=\"" ++ url ++ "\">") = "<img src=\"" ++ loc ++ "\">" ∧
    subSrc url loc ("<img src=\"" ++ url ++ "pad\">") =
      "<img src=\"" ++ loc ++ "\"pad\">" ∧
    subSrc url loc ("see src=" ++ url ++ " ok") = "see src=\"" ++ loc ++ "\" ok" := by
  obtain ⟨t, ht⟩ := List.isPrefixOf_iff_prefix.mp h
  refine ⟨?_, ?_, ?_⟩
  · show String.mk (subSrcRun url.data ("src=\"" ++ loc ++ "\"").data
      (("<img src=\"" ++ url ++ "\">").data)) = _
    have hd : ("<img src=\"" ++ url ++ "\">").data =
        '<' :: 'i' :: 'm' :: 'g' :: ' ' :: 's' :: 'r' :: 'c' ::
          ('=' :: '"' :: (url.data ++ '"' :: '>' :: [])) := by
      simp [String.data_append]
    rw [hd, subSrcRun_core_exact]
    apply congrArg String.mk
    simp [String.data_append, List.append_assoc]
  · show String.mk (subSrcRun url.data ("src=\"" ++ loc ++ "\"").data
      (("<img src=\"" ++ url ++ "pad\">").data)) = _
    have hd : ("<img src=\"" ++ url ++ "pad\">").data =
        '<' :: 'i' :: 'm' :: 'g' :: ' ' :: 's' :: 'r' :: 'c' ::
          ('=' :: '"' :: (url.data ++ 'p' :: 'a' :: 'd' :: '"' :: '>' :: [])) := by
      simp [String.data_append]
    rw [hd, subSrcRun_core_prefix]
    apply congrArg String.mk
    simp [String.data_append, List.append_assoc]
  · show String.mk (subSrcRun url.data ("src=\"" ++ loc ++ "\"").data
      (("see src=" ++ url ++ " ok").data)) = _
    have hu : url.data = 'h' :: ('t' :: 't' :: 'p' :: ':' :: '/' :: '/' :: t) := by
      rw [← ht]
      rfl
    have hd : ("see src=" ++ url ++ " ok").data =
        's' :: 'e' :: 'e' :: ' ' :: 's' :: 'r' :: 'c' ::
          ('=' :: (('h' :: ('t' :: 't' :: 'p' :: ':' :: '/' :: '/' :: t)) ++
            ' ' :: 'o' :: 'k' :: [])) := by
      simp [String.data_append, hu]
    rw [hd, hu, subSrcRun_core_bare]
    apply congrArg String.mk
    simp [String.data_append, List.append_assoc]

/-- Witness for the amended C1 at a concrete URL and local name. -/
theorem rewriter_textual_substitution_witness :
    strStarts "http://" "http://x/a.jpg" = true ∧
      (subSrc "http://x/a.jpg" "l.jpg" ("<img src=\"" ++ "http://x/a.jpg" ++ "\">") =
          "<img src=\"" ++ "l.jpg" ++ "\">" ∧
        subSrc "http://x/a.jpg" "l.jpg" ("<img src=\"" ++ "http://x/a.jpg" ++ "pad\">") =
          "<img src=\"" ++ "l.jpg" ++ "\"pad\">" ∧
        subSrc "http://x/a.jpg" "l.jpg" ("see src=" ++ "http://x/a.jpg" ++ " ok") =
          "see src=\"" ++ "l.jpg" ++ "\" ok") :=
  ⟨by decide, rewriter_textual_substitution "http://x/a.jpg" "l.jpg" (by decide)⟩

/-! ## C4: fetch failures degrade, the mapping is the successful subset -/

theorem map_fst_map_replace (k : String) (v : String) :
    ∀ d : List (String × String),
      (d.map fun p => if p.1 = k then (k, v) else p).map Prod.fst = d.map Prod.fst := by
  intro d
  induction d with
  | nil => rfl
  | cons p d' ih =>
    simp only [List.map_cons, ih, List.cons.injEq, and_true]
    by_cases hp : p.1 = k
    · simp [hp]
    · simp [hp]

theorem dictInsert_map_fst (k v : String) (d : List (String × String)) :
    (dictInsert k v d).map Prod.fst =
      if (d.map Prod.fst).contains k then d.map Prod.fst
      else d.map Prod.fst ++ [k] := by
  unfold dictInsert
  split
  · exact map_fst_map_replace k v d
  · simp

theorem decide_eq_beq_str (y u : String) : decide (y = u) = (y == u) := by
  by_cases h : y = u
  · simp [h]
  · simp [h]

theorem contains_append_singleton (A : List String) (u y : String) :
    (A ++ [u]).contains y = (u :: A).contains y := by
  simp [List.contains_cons, List.mem_append, Bool.or_comm, decide_eq_beq_str]

theorem dedupGo_congr :
    ∀ (l s₁ s₂ : List String), (∀ x, s₁.contains x = s₂.contains x) →
      dedupKeepFirst.go s₁ l = dedupKeepFirst.go s₂ l := by
  intro l
  induction l with
  | nil => intro s₁ s₂ _; rfl
  | cons x xs ih =>
    intro s₁ s₂ hs
    show (if s₁.contains x then dedupKeepFirst.go s₁ xs
        else x :: dedupKeepFirst.go (x :: s₁) xs) =
      (if s₂.contains x then dedupKeepFirst.go s₂ xs
        else x :: dedupKeepFirst.go (x :: s₂) xs)
    rw [hs x]
    by_cases hx : s₂.contains x = true
    · rw [if_pos hx]
      rw [if_pos hx]
      exact ih s₁ s₂ hs
    · rw [if_neg hx]
      rw [if_neg hx]
      exact congrArg (x :: ·) (ih (x :: s₁) (x :: s₂) fun y => by
        simp only [List.contains_cons]
        rw [hs y])

theorem buildRepsAux_fst (fetch : String → Bool) :
    ∀ (us : List String) (acc : List (String × String)),
      (buildRepsAux fetch acc us).map Prod.fst =
        acc.map Prod.fst ++ dedupKeepFirst.go (acc.map Prod.fst) (us.filter fetch) := by
  intro us
  induction us with
  | nil => intro acc; simp [buildRepsAux, dedupKeepFirst.go]
  | cons u us' ih =>
    intro acc
    by_cases hf : fetch u = true
    · rw [List.filter_cons_of_pos hf]
      have hstep : buildRepsAux fetch acc (u :: us') =
          buildRepsAux fetch (dictInsert u (downloadFilename u) acc) us' := by
        simp [buildRepsAux, hf]
      rw [hstep, ih, dictInsert_map_fst]
      by_cases hc : (acc.map Prod.fst).contains u = true
      · rw [if_pos hc]
        show _ = acc.map Prod.fst ++
          (if (acc.map Prod.fst).contains u then
            dedupKeepFirst.go (acc.map Prod.fst) (us'.filter fetch)
          else u :: dedupKeepFirst.go (u :: acc.map Prod.fst) (us'.filter fetch))
        rw [if_pos hc]
      · rw [if_neg hc]
        show _ = acc.map Prod.fst ++
          (if (acc.map Prod.fst).contains u then
            dedupKeepFirst.go (acc.map Prod.fst) (us'.filter fetch)
          else u :: dedupKeepFirst.go (u :: acc.map Prod.fst) (us'.filter fetch))
        rw [if_neg hc]
        rw [dedupGo_congr (us'.filter fetch) ((acc.map Prod.fst) ++ [u]) (u :: acc.map Prod.fst)
          (fun y => contains_append_singleton (acc.map Prod.fst) u y)]
        simp
    · have hf' : fetch u = false := by simpa using hf
      rw [List.filter_cons_of_neg (by simp [hf'])]
      have hstep : buildRepsAux fetch acc (u :: us') = buildRepsAux fetch acc us' := by
        simp [buildRepsAux, hf']
      rw [hstep]
      exact ih acc

theorem buildRepsAux_values (fetch : String → Bool) :
    ∀ (us : List String) (acc : List (String × String)),
      (acc.all fun p => p.2 == downloadFilename p.1) = true →
      ((buildRepsAux fetch acc us).all fun p => p.2 == downloadFilename p.1) = true := by
  intro us
  induction us with
  | nil => intro acc h; simpa [buildRepsAux] using h
  | cons u us' ih =>
    intro acc h
    by_cases hf : fetch u
    · simp only [buildRepsAux, hf, if_true]
      refine ih _ ?_
      unfold dictInsert
      split
      · rw [List.all_eq_true] at h ⊢
        intro p hp
        obtain ⟨q, hq, hpq⟩ := List.mem_map.mp hp
        by_cases hqk : q.1 = u
        · simp only [hqk, if_true] at hpq
          subst hpq
          simp
        · simp only [hqk, if_false] at hpq
          subst hpq
          exact h q hq
      · rw [List.all_append]
        simp [h]
    · simp only [buildRepsAux, hf, if_false]
      exact ih acc h

/-- C4 (amended): individual fetch failures never fail the stage (the
model is total by construction); the replacement mapping's keys are
exactly the successfully fetched URLs, deduplicated in first-seen order,
each mapped to its derived local filename; and the pipeline rewrites the
HTML by the textual substitution of those mapped URLs — which, not being
attribute-scoped, may also alter an unfetched `src` value that has a
mapped URL as a proper prefix. -/
theorem processImages_successful_subset (fetch : String → Bool) (urls : List String)
    (html : String) :
    (buildReplacements fetch urls).map Prod.fst = dedupKeepFirst (urls.filter fetch) ∧
    ((buildReplacements fetch urls).all fun p => p.2 == downloadFilename p.1) = true ∧
    processImagesCore fetch urls html =
      applyReplacements (buildReplacements fetch urls) html := by
  refine ⟨?_, ?_, rfl⟩
  · rw [buildReplacements, buildRepsAux_fst]
    rfl
  · exact buildRepsAux_values fetch urls [] rfl

/-- C4, as stated, fails: with the fetch of `http://x/a.jpgp` failing and
that of its proper prefix `http://x/a.jpg` succeeding, the mapping is
exactly the successful subset, but the failed image's `src` value is not
left unchanged — the substitution of the successful URL corrupts it. -/
theorem processImages_failed_src_altered :
    processImagesCore (fun u => u == "http://x/a.jpg")
        ["http://x/a.jpg", "http://x/a.jpgp"]
        "<img src=\"http://x/a.jpg\"><img src=\"http://x/a.jpgp\">" =
      "<img src=\"img_037052ef0569.jpg\"><img src=\"img_037052ef0569.jpg\"p\">" ∧
    ¬("src=\"http://x/a.jpgp\"".data <:+:
        (processImagesCore (fun u => u == "http://x/a.jpg")
          ["http://x/a.jpg", "http://x/a.jpgp"]
          "<img src=\"http://x/a.jpg\"><img src=\"http://x/a.jpgp\">").data) :=
  ⟨by decide, by decide⟩

/-! ## C9: the derived local filename -/

theorem downloadFilename?_eq (url : String) (fn : String)
    (h : downloadFilename? url = some fn) : downloadFilename url = fn := by
  unfold downloadFilename
  rw [h]
  rfl

theorem hexVal?_hexDigit (n : Nat) : hexVal? (hexDigit n) = some (n % 16) := by
  unfold hexDigit
  split <;> (simp_all [hexVal?]; try omega)

theorem parseHex4_hexDigit (w x y z : Nat) :
    parseHex4 (hexDigit w) (hexDigit x) (hexDigit y) (hexDigit z) =
      some (w % 16 * 4096 + x % 16 * 256 + y % 16 * 16 + z % 16) := by
  simp [parseHex4, hexVal?_hexDigit]

theorem parseUEscape_hex4 (n : Nat) (h1 : n < 65536) (h2 : ¬(55296 ≤ n ∧ n < 57344))
    (T : List Char) :
    parseUEscape (hex4 n ++ T) = some (Char.ofNat n, T) := by
  show parseUEscape
      (hexDigit (n / 4096) :: hexDigit (n / 256) :: hexDigit (n / 16) :: hexDigit n :: T) = _
  simp only [parseUEscape, parseHex4_hexDigit]
  rw [show n / 4096 % 16 * 4096 + n / 256 % 16 * 256 + n / 16 % 16 * 16 + n % 16 = n from by
    omega]
  rw [if_neg (by omega), if_neg (by omega)]

theorem parseUEscape_pair (v : Nat) (hv : v < 1048576) (T : List Char) :
    parseUEscape (hex4 (55296 + v / 1024) ++
        ('\\' :: 'u' :: (hex4 (56320 + v % 1024) ++ T))) =
      some (Char.ofNat (65536 + v), T) := by
  show parseUEscape
      (hexDigit ((55296 + v / 1024) / 4096) :: hexDigit ((55296 + v / 1024) / 256) ::
        hexDigit ((55296 + v / 1024) / 16) :: hexDigit (55296 + v / 1024) :: '\\' :: 'u' ::
        hexDigit ((56320 + v % 1024) / 4096) :: hexDigit ((56320 + v % 1024) / 256) ::
        hexDigit ((56320 + v % 1024) / 16) :: hexDigit (56320 + v % 1024) :: T) = _
  simp only [parseUEscape, parseHex4_hexDigit]
  rw [show (55296 + v / 1024) / 4096 % 16 * 4096 + (55296 + v / 1024) / 256 % 16 * 256 +
      (55296 + v / 1024) / 16 % 16 * 16 + (55296 + v / 1024) % 16 = 55296 + v / 1024 from by
    omega]
  rw [if_pos (by omega)]
  rw [show (56320 + v % 1024) / 4096 % 16 * 4096 + (56320 + v % 1024) / 256 % 16 * 256 +
      (56320 + v % 1024) / 16 % 16 * 16 + (56320 + v % 1024) % 16 = 56320 + v % 1024 from by
    omega]
  rw [if_pos (by omega)]
  rw [show 65536 + (55296 + v / 1024 - 55296) * 1024 + (56320 + v % 1024 - 56320) = 65536 + v
    from by omega]

theorem parseStrAux_quote (f : Nat) (rest : List Char) :
    parseStrAux (f + 1) ('"' :: rest) = some ([], rest) := by
  simp [parseStrAux]

theorem parseStrAux_lit (f : Nat) (c : Char) (rest : List Char)
    (h1 : ¬c = '"') (h2 : ¬c = '\\') (h3 : ¬c.toNat < 32) :
    parseStrAux (f + 1) (c :: rest) = (parseStrAux f rest).map fun q => (c :: q.1, q.2) := by
  simp only [parseStrAux]
  rw [if_neg h1, if_neg h2, if_neg h3]

theorem parseStrAux_esc (f : Nat) (e d : Char) (rest : List Char)
    (hu : ¬e = 'u') (hd : simpleEscape e = some d) :
    parseStrAux (f + 1) ('\\' :: e :: rest) =
      (parseStrAux f rest).map fun q => (d :: q.1, q.2) := by
  simp only [parseStrAux]
  rw [if_neg (by decide : ¬('\\' : Char) = '"'), if_pos trivial]
  rw [hd]

theorem parseStrAux_u (f : Nat) (rest1 : List Char) (ch : Char) (T : List Char)
    (h : parseUEscape rest1 = some (ch, T)) :
    parseStrAux (f + 1) ('\\' :: 'u' :: rest1) =
      (parseStrAux f T).map fun q => (ch :: q.1, q.2) := by
  simp only [parseStrAux]
  rw [if_neg (by decide : ¬('\\' : Char) = '"'), if_pos trivial]
  rw [h]

theorem parseStrAux_escapeList :
    ∀ (s T : List Char) (f : Nat), (escapeList s ++ '"' :: T).length ≤ f →
      parseStrAux f (escapeList s ++ '"' :: T) = some (s, T) := by
  intro s
  induction s with
  | nil =>
    intro T f hf
    simp only [escapeList, List.flatMap_nil, List.nil_append] at hf ⊢
    obtain ⟨f', rfl⟩ : ∃ f', f = f' + 1 := ⟨f - 1, by simp at hf; omega⟩
    exact parseStrAux_quote f' T
  | cons c s' ih =>
    intro T f hf
    by_cases h1 : c = '"'
    · subst h1
      rw [show escapeList ('"' :: s') ++ '"' :: T = '\\' :: '"' :: (escapeList s' ++ '"' :: T)
          from by simp [escapeList, escapeChar]] at hf ⊢
      obtain ⟨f', rfl⟩ : ∃ f', f = f' + 1 := ⟨f - 1, by simp at hf; omega⟩
      rw [parseStrAux_esc f' '"' '"' _ (by decide) (by decide),
          ih T f' (by simp at hf ⊢; omega)]
      rfl
    · by_cases h2 : c = '\\'
      · subst h2
        rw [show escapeList ('\\' :: s') ++ '"' :: T = '\\' :: '\\' :: (escapeList s' ++ '"' :: T)
            from by simp [escapeList, escapeChar]] at hf ⊢
        obtain ⟨f', rfl⟩ : ∃ f', f = f' + 1 := ⟨f - 1, by simp at hf; omega⟩
        rw [parseStrAux_esc f' '\\' '\\' _ (by decide) (by decide),
            ih T f' (by simp at hf ⊢; omega)]
        rfl
      · by_cases h3 : c = '\x08'
        · subst h3
          rw [show escapeList ('\x08' :: s') ++ '"' :: T
              = '\\' :: 'b' :: (escapeList s' ++ '"' :: T)
              from by simp [escapeList, escapeChar]] at hf ⊢
          obtain ⟨f', rfl⟩ : ∃ f', f = f' + 1 := ⟨f - 1, by simp at hf; omega⟩
          rw [parseStrAux_esc f' 'b' '\x08' _ (by decide) (by decide),
              ih T f' (by simp at hf ⊢; omega)]
          rfl
        · by_cases h4 : c = '\x0c'
          · subst h4
            rw [show escapeList ('\x0c' :: s') ++ '"' :: T
                = '\\' :: 'f' :: (escapeList s' ++ '"' :: T)
                from by simp [escapeList, escapeChar]] at hf ⊢
            obtain ⟨f', rfl⟩ : ∃ f', f = f' + 1 := ⟨f - 1, by simp at hf; omega⟩
            rw [parseStrAux_esc f' 'f' '\x0c' _ (by decide) (by decide),
                ih T f' (by simp at hf ⊢; omega)]
            rfl
          · by_cases h5 : c = '\n'
            · subst h5
              rw [show escapeList ('\n' :: s') ++ '"' :: T
                  = '\\' :: 'n' :: (escapeList s' ++ '"' :: T)
                  from by simp [escapeList, escapeChar]] at hf ⊢
              obtain ⟨f', rfl⟩ : ∃ f', f = f' + 1 := ⟨f - 1, by simp at hf; omega⟩
              rw [parseStrAux_esc f' 'n' '\n' _ (by decide) (by decide),
                  ih T f' (by simp at hf ⊢; omega)]
              rfl
            · by_cases h6 : c = '\r'
              · subst h6
                rw [show escapeList ('\r' :: s') ++ '"' :: T
                    = '\\' :: 'r' :: (escapeList s' ++ '"' :: T)
                    from by simp [escapeList, escapeChar]] at hf ⊢
                obtain ⟨f', rfl⟩ : ∃ f', f = f' + 1 := ⟨f - 1, by simp at hf; omega⟩
                rw [parseStrAux_esc f' 'r' '\r' _ (by decide) (by decide),
                    ih T f' (by simp at hf ⊢; omega)]
                rfl
              · by_cases h7 : c = '\t'
                · subst h7
                  rw [show escapeList ('\t' :: s') ++ '"' :: T
                      = '\\' :: 't' :: (escapeList s' ++ '"' :: T)
                      from by simp [escapeList, escapeChar]] at hf ⊢
                  obtain ⟨f', rfl⟩ : ∃ f', f = f' + 1 := ⟨f - 1, by simp at hf; omega⟩
                  rw [parseStrAux_esc f' 't' '\t' _ (by decide) (by decide),
                      ih T f' (by simp at hf ⊢; omega)]
                  rfl
                · by_cases h8 : 32 ≤ c.toNat ∧ c.toNat ≤ 126
                  · rw [show escapeList (c :: s') ++ '"' :: T = c :: (escapeList s' ++ '"' :: T)
                        from by simp [escapeList, escapeChar, h1, h2, h3, h4, h5, h6, h7, h8]]
                      at hf ⊢
                    obtain ⟨f', rfl⟩ : ∃ f', f = f' + 1 := ⟨f - 1, by simp at hf; omega⟩
                    rw [parseStrAux_lit f' c _ h1 h2 (by omega),
                        ih T f' (by simp at hf ⊢; omega)]
                    rfl
                  · have hv : c.toNat < 55296 ∨ (57343 < c.toNat ∧ c.toNat < 1114112) := c.valid
                    by_cases h9 : c.toNat < 65536
                    · rw [show escapeList (c :: s') ++ '"' :: T
                          = '\\' :: 'u' :: (hex4 c.toNat ++ (escapeList s' ++ '"' :: T))
                          from by
                            simp [escapeList, escapeChar, h1, h2, h3, h4, h5, h6, h7, h8, h9,
                              List.append_assoc]] at hf ⊢
                      obtain ⟨f', rfl⟩ : ∃ f', f = f' + 1 :=
                        ⟨f - 1, by simp [hex4] at hf; omega⟩
                      rw [parseStrAux_u f' _ c _
                          (by rw [parseUEscape_hex4 c.toNat h9 (by omega), Char.ofNat_toNat])]
                      rw [ih T f' (by simp [hex4] at hf ⊢; omega)]
                      rfl
                    · rw [show escapeList (c :: s') ++ '"' :: T
                          = '\\' :: 'u' :: (hex4 (55296 + (c.toNat - 65536) / 1024) ++
                              ('\\' :: 'u' :: (hex4 (56320 + (c.toNat - 65536) % 1024) ++
                                (escapeList s' ++ '"' :: T))))
                          from by
                            simp [escapeList, escapeChar, h1, h2, h3, h4, h5, h6, h7, h8, h9,
                              List.append_assoc]] at hf ⊢
                      obtain ⟨f', rfl⟩ : ∃ f', f = f' + 1 :=
                        ⟨f - 1, by simp [hex4] at hf; omega⟩
                      rw [parseStrAux_u f' _ c _
                          (by rw [parseUEscape_pair (c.toNat - 65536) (by omega) _,
                                show 65536 + (c.toNat - 65536) = c.toNat from by omega,
                                Char.ofNat_toNat])]
                      rw [ih T f' (by simp [hex4] at hf ⊢; omega)]
                      rfl

theorem parseStringBody_escapeList (s T : List Char) :
    parseStringBody (escapeList s ++ '"' :: T) = some (s, T) :=
  parseStrAux_escapeList s T _ (le_refl _)

theorem parseValue_true (f : Nat) (rest : List Char) :
    parseValue (f + 1) (' ' :: 't' :: 'r' :: 'u' :: 'e' :: rest) = some (.bool true, rest) := by
  simp [parseValue, jsonWs, List.dropWhile_cons]

theorem parseValue_false (f : Nat) (rest : List Char) :
    parseValue (f + 1) (' ' :: 'f' :: 'a' :: 'l' :: 's' :: 'e' :: rest) =
      some (.bool false, rest) := by
  simp [parseValue, jsonWs, List.dropWhile_cons]

theorem parseValue_str (f : Nat) (s : List Char) (rest : List Char) :
    parseValue (f + 1) (' ' :: '"' :: (escapeList s ++ '"' :: rest)) =
      some (.str (String.mk s), rest) := by
  simp [parseValue, jsonWs, List.dropWhile_cons, parseStringBody_escapeList]

theorem parseMembers_error_member (f : Nat) (e : List Char) (rest : List Char) :
    parseMembers (f + 2) ('"' :: 'e' :: 'r' :: 'r' :: 'o' :: 'r' :: '"' :: ':' :: ' ' :: '"' ::
        (escapeList e ++ '"' :: '\x7d' :: rest)) =
      some ([("error", .str (String.mk e))], rest) := by
  show parseMembers ((f + 1) + 1) _ = _
  simp only [parseMembers]
  rw [show ('e' :: 'r' :: 'r' :: 'o' :: 'r' :: '"' :: ':' :: ' ' :: '"' ::
      (escapeList e ++ '"' :: '\x7d' :: rest))
      = escapeList ['e', 'r', 'r', 'o', 'r'] ++ '"' ::
        (':' :: ' ' :: '"' :: (escapeList e ++ '"' :: '\x7d' :: rest)) from rfl]
  rw [parseStringBody_escapeList]
  simp only [List.dropWhile_cons]
  rw [show jsonWs ':' = false from rfl]
  simp only [Bool.false_eq_true, if_false]
  rw [parseValue_str f e ('\x7d' :: rest)]
  simp [jsonWs, List.dropWhile_cons]

theorem parseMembers_success_error (f : Nat) (b : Bool) (e : List Char) (rest : List Char) :
    parseMembers (f + 3) ('"' :: 's' :: 'u' :: 'c' :: 'c' :: 'e' :: 's' :: 's' :: '"' ::
        ':' :: ' ' ::
        ((if b then ['t', 'r', 'u', 'e'] else ['f', 'a', 'l', 's', 'e']) ++
          (',' :: ' ' :: '"' :: 'e' :: 'r' :: 'r' :: 'o' :: 'r' :: '"' :: ':' :: ' ' :: '"' ::
            (escapeList e ++ '"' :: '\x7d' :: rest)))) =
      some ([("success", .bool b), ("error", .str (String.mk e))], rest) := by
  show parseMembers ((f + 2) + 1) _ = _
  rw [parseMembers]
  rw [show ('s' :: 'u' :: 'c' :: 'c' :: 'e' :: 's' :: 's' :: '"' :: ':' :: ' ' ::
      ((if b then ['t', 'r', 'u', 'e'] else ['f', 'a', 'l', 's', 'e']) ++
        (',' :: ' ' :: '"' :: 'e' :: 'r' :: 'r' :: 'o' :: 'r' :: '"' :: ':' :: ' ' :: '"' ::
          (escapeList e ++ '"' :: '\x7d' :: rest))))
      = escapeList ['s', 'u', 'c', 'c', 'e', 's', 's'] ++ '"' ::
        (':' :: ' ' ::
          ((if b then ['t', 'r', 'u', 'e'] else ['f', 'a', 'l', 's', 'e']) ++
            (',' :: ' ' :: '"' :: 'e' :: 'r' :: 'r' :: 'o' :: 'r' :: '"' :: ':' :: ' ' :: '"' ::
              (escapeList e ++ '"' :: '\x7d' :: rest)))) from rfl]
  rw [parseStringBody_escapeList]
  simp only [List.dropWhile_cons]
  rw [show jsonWs ':' = false from rfl]
  simp only [Bool.false_eq_true, if_false]
  cases b
  · rw [show ((if false then ['t', 'r', 'u', 'e'] else ['f', 'a', 'l', 's', 'e']) ++
        (',' :: ' ' :: '"' :: 'e' :: 'r' :: 'r' :: 'o' :: 'r' :: '"' :: ':' :: ' ' :: '"' ::
          (escapeList e ++ '"' :: '\x7d' :: rest)))
        = 'f' :: 'a' :: 'l' :: 's' :: 'e' ::
          (',' :: ' ' :: '"' :: 'e' :: 'r' :: 'r' :: 'o' :: 'r' :: '"' :: ':' :: ' ' :: '"' ::
            (escapeList e ++ '"' :: '\x7d' :: rest)) from rfl]
    rw [show (f + 2) = (f + 1) + 1 from rfl]
    rw [parseValue_false (f + 1)]
    simp only [List.dropWhile_cons]
    rw [show jsonWs ',' = false from rfl]
    simp only [Bool.false_eq_true, if_false]
    rw [show List.dropWhile jsonWs (' ' :: '"' :: 'e' :: 'r' :: 'r' :: 'o' :: 'r' :: '"' ::
        ':' :: ' ' :: '"' :: (escapeList e ++ '"' :: '\x7d' :: rest))
        = '"' :: 'e' :: 'r' :: 'r' :: 'o' :: 'r' :: '"' ::
          ':' :: ' ' :: '"' :: (escapeList e ++ '"' :: '\x7d' :: rest) from rfl]
    rw [parseMembers_error_member f e rest]
    rfl
  · rw [show ((if true then ['t', 'r', 'u', 'e'] else ['f', 'a', 'l', 's', 'e']) ++
        (',' :: ' ' :: '"' :: 'e' :: 'r' :: 'r' :: 'o' :: 'r' :: '"' :: ':' :: ' ' :: '"' ::
          (escapeList e ++ '"' :: '\x7d' :: rest)))
        = 't' :: 'r' :: 'u' :: 'e' ::
          (',' :: ' ' :: '"' :: 'e' :: 'r' :: 'r' :: 'o' :: 'r' :: '"' :: ':' :: ' ' :: '"' ::
            (escapeList e ++ '"' :: '\x7d' :: rest)) from rfl]
    rw [show (f + 2) = (f + 1) + 1 from rfl]
    rw [parseValue_true (f + 1)]
    simp only [List.dropWhile_cons]
    rw [show jsonWs ',' = false from rfl]
    simp only [Bool.false_eq_true, if_false]
    rw [show List.dropWhile jsonWs (' ' :: '"' :: 'e' :: 'r' :: 'r' :: 'o' :: 'r' :: '"' ::
        ':' :: ' ' :: '"' :: (escapeList e ++ '"' :: '\x7d' :: rest))
        = '"' :: 'e' :: 'r' :: 'r' :: 'o' :: 'r' :: '"' ::
          ':' :: ' ' :: '"' :: (escapeList e ++ '"' :: '\x7d' :: rest) from rfl]
    rw [parseMembers_error_member f e rest]
    rfl

theorem parseValue_responseObj (f : Nat) (b : Bool) (e : List Char) (rest : List Char) :
    parseValue (f + 4) ('\x7b' :: '"' :: 's' :: 'u' :: 'c' :: 'c' :: 'e' :: 's' :: 's' :: '"' ::
        ':' :: ' ' ::
        ((if b then ['t', 'r', 'u', 'e'] else ['f', 'a', 'l', 's', 'e']) ++
          (',' :: ' ' :: '"' :: 'e' :: 'r' :: 'r' :: 'o' :: 'r' :: '"' :: ':' :: ' ' :: '"' ::
            (escapeList e ++ '"' :: '\x7d' :: rest)))) =
      some (.obj [("success", .bool b), ("error", .str (String.mk e))], rest) := by
  show parseValue ((f + 3) + 1) _ = _
  rw [parseValue]
  simp only [List.dropWhile_cons]
  rw [show jsonWs '\x7b' = false from rfl]
  simp only [Bool.false_eq_true, if_false]
  rw [if_pos trivial]
  simp only [List.dropWhile_cons]
  rw [show jsonWs '"' = false from rfl]
  simp only [Bool.false_eq_true, if_false]
  rw [parseMembers_success_error f b e rest]
  rfl

theorem jsonDumps_response_some (b : Bool) (s : String) :
    jsonDumps (Response.toJVal ⟨b, some s⟩) =
      '\x7b' :: '"' :: 's' :: 'u' :: 'c' :: 'c' :: 'e' :: 's' :: 's' :: '"' :: ':' :: ' ' ::
        ((if b then ['t', 'r', 'u', 'e'] else ['f', 'a', 'l', 's', 'e']) ++
          (',' :: ' ' :: '"' :: 'e' :: 'r' :: 'r' :: 'o' :: 'r' :: '"' :: ':' :: ' ' :: '"' ::
            (escapeList s.data ++ '"' :: '\x7d' :: []))) := by
  cases b <;>
    simp [Response.toJVal, jsonDumps, jsonDumps.members, dumpString,
      show escapeList "success".data = ['s', 'u', 'c', 'c', 'e', 's', 's'] from rfl,
      show escapeList "error".data = ['e', 'r', 'r', 'o', 'r'] from rfl]

theorem jsonLoads_dumps_response (b : Bool) (e : String) :
    jsonLoads (jsonDumps (Response.toJVal ⟨b, some e⟩)) =
      some (Response.toJVal ⟨b, some e⟩) := by
  rw [jsonDumps_response_some b e]
  unfold jsonLoads
  rw [show ('\x7b' :: '"' :: 's' :: 'u' :: 'c' :: 'c' :: 'e' :: 's' :: 's' :: '"' :: ':' :: ' ' ::
      ((if b then ['t', 'r', 'u', 'e'] else ['f', 'a', 'l', 's', 'e']) ++
        (',' :: ' ' :: '"' :: 'e' :: 'r' :: 'r' :: 'o' :: 'r' :: '"' :: ':' :: ' ' :: '"' ::
          (escapeList e.data ++ '"' :: '\x7d' :: [])))).length + 2
      = ((escapeList e.data).length + (if b then 28 else 29)) + 4 from by
    cases b <;> (simp [List.length_append]; try omega)]
  rw [parseValue_responseObj ((escapeList e.data).length + (if b then 28 else 29)) b e.data []]
  rw [show String.mk e.data = e from rfl]
  rfl

theorem utf8DecodeAux_encode :
    ∀ (l : List Char) (f : Nat), (utf8Encode l).length ≤ f →
      utf8DecodeAux f (utf8Encode l) = some l := by
  intro l
  induction l with
  | nil =>
    intro f hf
    show utf8DecodeAux f [] = some []
    cases f <;> rfl
  | cons c l' ih =>
    intro f hf
    have hv : c.toNat < 55296 ∨ (57343 < c.toNat ∧ c.toNat < 1114112) := c.valid
    by_cases ha : c.toNat < 128
    · rw [show utf8Encode (c :: l') = c.toNat :: utf8Encode l' from by
        rw [show utf8Encode (c :: l') = utf8EncodeChar c ++ utf8Encode l' from rfl]
        unfold utf8EncodeChar; rw [if_pos ha]; rfl] at hf ⊢
      obtain ⟨f', rfl⟩ : ∃ f', f = f' + 1 := ⟨f - 1, by simp at hf; omega⟩
      simp only [utf8DecodeAux]
      rw [if_pos ha, ih f' (by simp at hf; omega)]
      simp [Char.ofNat_toNat]
    · by_cases hb : c.toNat < 2048
      · rw [show utf8Encode (c :: l')
            = (192 + c.toNat / 64) :: (128 + c.toNat % 64) :: utf8Encode l' from by
          rw [show utf8Encode (c :: l') = utf8EncodeChar c ++ utf8Encode l' from rfl]
          unfold utf8EncodeChar; rw [if_neg ha, if_pos hb]; rfl] at hf ⊢
        obtain ⟨f', rfl⟩ : ∃ f', f = f' + 1 := ⟨f - 1, by simp at hf; omega⟩
        simp only [utf8DecodeAux]
        rw [if_neg (by omega), if_neg (by omega), if_pos (by omega)]
        rw [show contByte (128 + c.toNat % 64) = some (c.toNat % 64) from by
          unfold contByte; rw [if_pos (by omega)]; congr 1; omega]
        show (if (192 + c.toNat / 64 - 192) * 64 + c.toNat % 64 < 128 then none
            else (utf8DecodeAux f' (utf8Encode l')).map fun cs =>
              Char.ofNat ((192 + c.toNat / 64 - 192) * 64 + c.toNat % 64) :: cs)
          = some (c :: l')
        rw [if_neg (by omega),
          show (192 + c.toNat / 64 - 192) * 64 + c.toNat % 64 = c.toNat from by omega,
          ih f' (by simp at hf; omega)]
        simp [Char.ofNat_toNat]
      · by_cases hc : c.toNat < 65536
        · rw [show utf8Encode (c :: l')
              = (224 + c.toNat / 4096) :: (128 + c.toNat / 64 % 64) :: (128 + c.toNat % 64) ::
                utf8Encode l' from by
            rw [show utf8Encode (c :: l') = utf8EncodeChar c ++ utf8Encode l' from rfl]
            unfold utf8EncodeChar; rw [if_neg ha, if_neg hb, if_pos hc]; rfl] at hf ⊢
          obtain ⟨f', rfl⟩ : ∃ f', f = f' + 1 := ⟨f - 1, by simp at hf; omega⟩
          simp only [utf8DecodeAux]
          rw [if_neg (by omega), if_neg (by omega), if_neg (by omega), if_pos (by omega)]
          rw [show contByte (128 + c.toNat / 64 % 64) = some (c.toNat / 64 % 64) from by
            unfold contByte; rw [if_pos (by omega)]; congr 1; omega]
          rw [show contByte (128 + c.toNat % 64) = some (c.toNat % 64) from by
            unfold contByte; rw [if_pos (by omega)]; congr 1; omega]
          show (if (224 + c.toNat / 4096 - 224) * 4096 + c.toNat / 64 % 64 * 64 + c.toNat % 64
                  < 2048 ∨
                (55296 ≤ (224 + c.toNat / 4096 - 224) * 4096 + c.toNat / 64 % 64 * 64 +
                    c.toNat % 64 ∧
                  (224 + c.toNat / 4096 - 224) * 4096 + c.toNat / 64 % 64 * 64 + c.toNat % 64
                    < 57344) then none
              else (utf8DecodeAux f' (utf8Encode l')).map fun cs =>
                Char.ofNat ((224 + c.toNat / 4096 - 224) * 4096 + c.toNat / 64 % 64 * 64 +
                  c.toNat % 64) :: cs)
            = some (c :: l')
          rw [if_neg (by omega),
            show (224 + c.toNat / 4096 - 224) * 4096 + c.toNat / 64 % 64 * 64 + c.toNat % 64
              = c.toNat from by omega,
            ih f' (by simp at hf; omega)]
          simp [Char.ofNat_toNat]
        · rw [show utf8Encode (c :: l')
              = (240 + c.toNat / 262144) :: (128 + c.toNat / 4096 % 64) ::
                (128 + c.toNat / 64 % 64) :: (128 + c.toNat % 64) :: utf8Encode l' from by
            rw [show utf8Encode (c :: l') = utf8EncodeChar c ++ utf8Encode l' from rfl]
            unfold utf8EncodeChar; rw [if_neg ha, if_neg hb, if_neg hc]; rfl] at hf ⊢
          obtain ⟨f', rfl⟩ : ∃ f', f = f' + 1 := ⟨f - 1, by simp at hf; omega⟩
          simp only [utf8DecodeAux]
          rw [if_neg (by omega), if_neg (by omega), if_neg (by omega), if_neg (by omega),
            if_pos (by omega)]
          rw [show contByte (128 + c.toNat / 4096 % 64) = some (c.toNat / 4096 % 64) from by
            unfold contByte; rw [if_pos (by omega)]; congr 1; omega]
          rw [show contByte (128 + c.toNat / 64 % 64) = some (c.toNat / 64 % 64) from by
            unfold contByte; rw [if_pos (by omega)]; congr 1; omega]
          rw [show contByte (128 + c.toNat % 64) = some (c.toNat % 64) from by
            unfold contByte; rw [if_pos (by omega)]; congr 1; omega]
          show (if (240 + c.toNat / 262144 - 240) * 262144 + c.toNat / 4096 % 64 * 4096 +
                  c.toNat / 64 % 64 * 64 + c.toNat % 64 < 65536 ∨
                1114112 ≤ (240 + c.toNat / 262144 - 240) * 262144 + c.toNat / 4096 % 64 * 4096 +
                  c.toNat / 64 % 64 * 64 + c.toNat % 64 then none
              else (utf8DecodeAux f' (utf8Encode l')).map fun cs =>
                Char.ofNat ((240 + c.toNat / 262144 - 240) * 262144 +
                  c.toNat / 4096 % 64 * 4096 + c.toNat / 64 % 64 * 64 + c.toNat % 64) :: cs)
            = some (c :: l')
          rw [if_neg (by omega),
            show (240 + c.toNat / 262144 - 240) * 262144 + c.toNat / 4096 % 64 * 4096 +
              c.toNat / 64 % 64 * 64 + c.toNat % 64 = c.toNat from by omega,
            ih f' (by simp at hf; omega)]
          simp [Char.ofNat_toNat]

theorem utf8Decode_encode (l : List Char) : utf8Decode (utf8Encode l) = some l :=
  utf8DecodeAux_encode l _ (le_refl _)

theorem readMessage_packed (body : List Nat) (hb : body.length < 4294967296) :
    readMessage (packLE body.length ++ body) = decodePayload body := by
  have hlen : (packLE body.length).length = 4 := rfl
  simp only [readMessage, pyRead]
  rw [List.take_left' hlen, List.drop_left' hlen]
  simp only [packLE]
  rw [unpackLE_packLE hb, List.take_length]
  rw [if_neg (by simp)]

/-- C8 (amended): for every `Response` whose JSON-serialised UTF-8 body is
shorter than `2 ^ 32` bytes, writing it with `send_message` and reading
the bytes back with `read_message` yields a structured object equal to
the original — the length prefix and UTF-8 body round-trip exactly. -/
theorem responses_roundTrip (r : Response)
    (h : (utf8Encode (jsonDumps r.toJVal)).length < 4294967296) :
    roundTrip r = some r.toJVal := by
  obtain ⟨b, err⟩ := r
  cases err with
  | none => cases b <;> rfl
  | some e =>
    simp only [roundTrip, writeMessageBytes]
    rw [show packLE? (utf8Encode (jsonDumps (Response.toJVal ⟨b, some e⟩))).length
        = some (packLE (utf8Encode (jsonDumps (Response.toJVal ⟨b, some e⟩))).length) from by
      unfold packLE?; rw [if_pos h]]
    simp only [Option.map_some']
    rw [readMessage_packed _ h]
    unfold decodePayload
    rw [utf8Decode_encode]
    simp only [jsonLoads_dumps_response b e]

/-- Witness for the amended C8 at a concrete response the host sends. -/
theorem responses_roundTrip_witness :
    ((utf8Encode (jsonDumps (Response.toJVal ⟨false, some "No content provided"⟩))).length
        < 4294967296) ∧
      roundTrip ⟨false, some "No content provided"⟩
        = some (Response.toJVal ⟨false, some "No content provided"⟩) :=
  ⟨by decide, responses_roundTrip ⟨false, some "No content provided"⟩ (by decide)⟩

theorem escapeList_replicate_a (n : Nat) :
    escapeList (List.replicate n 'a') = List.replicate n 'a' := by
  induction n with
  | zero => rfl
  | succ n ih =>
    rw [List.replicate_succ,
      show escapeList ('a' :: List.replicate n 'a')
        = escapeChar 'a' ++ escapeList (List.replicate n 'a') from rfl,
      ih]
    rfl

theorem utf8Encode_length_ge (l : List Char) : l.length ≤ (utf8Encode l).length := by
  induction l with
  | nil => simp [utf8Encode]
  | cons c l' ih =>
    rw [show utf8Encode (c :: l') = utf8EncodeChar c ++ utf8Encode l' from rfl]
    have h1 : 1 ≤ (utf8EncodeChar c).length := by
      simp only [utf8EncodeChar]
      split_ifs <;> simp
    simp only [List.length_append, List.length_cons]
    omega

theorem roundTrip_overflow (n : Nat) (hn : 4294967296 ≤ n) :
    roundTrip ⟨false, some (String.mk (List.replicate n 'a'))⟩ = none := by
  have hlen : 4294967296 ≤
      (utf8Encode (jsonDumps
        (Response.toJVal ⟨false, some (String.mk (List.replicate n 'a'))⟩))).length := by
    have h1 := utf8Encode_length_ge
      (jsonDumps (Response.toJVal ⟨false, some (String.mk (List.replicate n 'a'))⟩))
    have h2 : n ≤ (jsonDumps
        (Response.toJVal ⟨false, some (String.mk (List.replicate n 'a'))⟩)).length := by
      rw [jsonDumps_response_some false (String.mk (List.replicate n 'a')),
        show (String.mk (List.replicate n 'a')).data = List.replicate n 'a' from rfl,
        escapeList_replicate_a]
      simp [List.length_append]
      omega
    omega
  simp only [roundTrip, writeMessageBytes]
  rw [show packLE? (utf8Encode (jsonDumps
      (Response.toJVal ⟨false, some (String.mk (List.replicate n 'a'))⟩))).length = none from by
    unfold packLE?; rw [if_neg (by omega)]]
  rfl

/-- C8, as stated for every `Response`, fails: a response whose error
string has `2 ^ 32` characters makes `struct.pack("@I", ...)` raise
`struct.error` inside `send_message`, so no bytes are produced and
nothing round-trips. -/
theorem roundTrip_counterexample :
    roundTrip ⟨false, some (String.mk (List.replicate 4294967296 'a'))⟩ ≠
      some (Response.toJVal ⟨false, some (String.mk (List.replicate 4294967296 'a'))⟩) := by
  rw [roundTrip_overflow 4294967296 (le_refl _)]
  intro hc
  exact Option.noConfusion hc

end KindleBeam
